import Mathlib

/-!
# pdf-generator: report pipeline

A shallow embedding of `internal/redis/client.go` and
`internal/service/pdf_service.go`.

Conventions of the embedding:

* `int64` values are `Int`; `float64` values are `Float64`: a finite value is the
  rational it represents, every sum and quotient is rounded to the nearest
  representable value (ties to even), with overflow to an infinity and NaN.
* a Go `map[string]V` is the list of its entries (`GoMap V`); the order in which
  a `range` loop visits a map is a parameter of the environment.
* calls into libraries (the Redis client, `strconv.ParseFloat`, `sort.Slice`,
  the chart rasterizer, the PDF serializer, `time`) are fields of `Store` and `Libs`.
* `fmt.Sprintf` and `Time.Format` calls are kept as uninterpreted terms
  (`Text.sprintf`, `FmtArg.time`) carrying the format string and the arguments.
* a function that can return a Go `error` or panic returns `Except Fault _`.
-/

namespace PdfGenerator

/-! ## Go runtime -/

/-- Go `map[string]V` as its list of entries; `GoMap.set` keeps the keys unique. -/
abbrev GoMap (V : Type) := List (String × V)

/-- Map read `m[k]` with the comma-ok result. -/
def GoMap.get {V : Type} : GoMap V → String → Option V
  | [], _ => none
  | (k', v) :: m, k => if k' = k then some v else GoMap.get m k

/-- Map write `m[k] = v`. -/
def GoMap.set {V : Type} : GoMap V → String → V → GoMap V
  | [], k, v => [(k, v)]
  | (k', v') :: m, k, v => if k' = k then (k, v) :: m else (k', v') :: GoMap.set m k v

/-- How a Go call can fail: a returned `error`, or a run-time panic. -/
inductive Fault where
  | error (msg : String)
  | panic (msg : String)
  deriving DecidableEq, Repr

/-- Dynamic value of type `interface{}`. The value that go-redis v8 returns from
`redis.Cmd.Result()` is built from `nil`, `int` (an integer reply, `int64`), `str` (a
bulk or status reply, Go `string`) and `arr` (`[]interface{}`); it never holds a
`[]byte`, which is `bytes` here. -/
inductive Reply where
  | nil
  | int (n : Int)
  | str (s : String)
  | bytes (b : String)
  | arr (items : List Reply)

/-- Unchecked type assertion `x.([]byte)`: panics on any other dynamic type. -/
def asBytes : Reply → Except Fault String
  | .bytes b => .ok b
  | .nil => .error (.panic "interface conversion: interface {} is nil, not []uint8")
  | .int _ => .error (.panic "interface conversion: interface {} is int64, not []uint8")
  | .str _ => .error (.panic "interface conversion: interface {} is string, not []uint8")
  | .arr _ =>
    .error (.panic "interface conversion: interface {} is []interface {}, not []uint8")

/-! ## strconv -/

/-- The `Err` field of a `*strconv.NumError`. -/
inductive NumErr where
  | ErrSyntax
  | ErrRange
  deriving DecidableEq, Repr

def maxUint64 : Nat := 2 ^ 64 - 1

def maxInt64 : Int := 2 ^ 63 - 1

def minInt64 : Int := -(2 ^ 63)

/-- Digit loop of `strconv.ParseUint(s, 10, 64)`, `n` being the value read so far.
A byte that is not a decimal digit is a syntax error with value 0; a value that
leaves the `uint64` range returns at once with the largest `uint64` and `ErrRange`
(the checks `n >= cutoff` and `n1 < n || n1 > maxVal` of the library). -/
def parseUintLoop : List Char → Nat → Nat × Option NumErr
  | [], n => (n, none)
  | c :: cs, n =>
    if '0' ≤ c ∧ c ≤ '9' then
      if n ≥ maxUint64 / 10 + 1 then (maxUint64, some .ErrRange)
      else if n * 10 + (c.toNat - '0'.toNat) > maxUint64 then (maxUint64, some .ErrRange)
      else parseUintLoop cs (n * 10 + (c.toNat - '0'.toNat))
    else (0, some .ErrSyntax)

/-- Go `strconv.ParseUint(s, 10, 64)` on the bytes of `s`. -/
def ParseUint (s : List Char) : Nat × Option NumErr :=
  if s = [] then (0, some .ErrSyntax) else parseUintLoop s 0

/-- Go `strconv.ParseInt(s, 10, 64)`: the value and the error it returns. -/
def ParseInt (s : String) : Int × Option NumErr :=
  match s.toList with
  | [] => (0, some .ErrSyntax)
  | c :: cs =>
    let neg : Bool := c = '-'
    let rest : List Char := if c = '+' ∨ c = '-' then cs else c :: cs
    match ParseUint rest with
    | (_, some .ErrSyntax) => (0, some .ErrSyntax)
    | (un, _) =>
      if neg = false ∧ (un : Int) ≥ 2 ^ 63 then (maxInt64, some .ErrRange)
      else if neg = true ∧ (un : Int) > 2 ^ 63 then (minInt64, some .ErrRange)
      else (if neg then -(un : Int) else (un : Int), none)

/-! ## float64 -/

/-- A `float64`: a finite value, given as the rational it represents, an infinity,
or a NaN. The sign of a zero is not kept: it shows only in a printed `-0.00`. -/
inductive Float64 where
  | fin (q : ℚ)
  | inf (neg : Bool)
  | nan
  deriving DecidableEq, Repr

/-- The number of binary digits of `n` (Go `bits.Len`), with `fuel` at least `n`. -/
def bitLen : Nat → Nat → Nat
  | 0, _ => 0
  | fuel + 1, n => if n = 0 then 0 else bitLen fuel (n / 2) + 1

/-- The power `2 ^ k` for an integer `k`. -/
def pow2 (k : Int) : ℚ :=
  if 0 ≤ k then ((2 ^ k.toNat : ℕ) : ℚ) else 1 / ((2 ^ (-k).toNat : ℕ) : ℚ)

/-- For `q ≠ 0`, the exponent `e` with `2 ^ e ≤ |q| < 2 ^ (e + 1)`. -/
def floorLog2 (q : ℚ) : Int :=
  let k : Int :=
    (bitLen q.num.natAbs q.num.natAbs : Int) - (bitLen q.den q.den : Int)
  if pow2 k ≤ |q| then k else k - 1

/-- The integer nearest to `x`, the even one of the two when `x` is halfway. -/
def roundHalfEven (x : ℚ) : Int :=
  let f := Rat.floor x
  if x - f < 1 / 2 then f
  else if 1 / 2 < x - f then f + 1
  else if f % 2 = 0 then f else f + 1

/-- The `float64` nearest to the real number `q` (IEEE 754 binary64, round to
nearest, ties to even): 53 significant bits, exponents from -1022 (below, the
spacing stays `2 ^ -1074`), and an infinity from `2 ^ 1024` on. -/
def roundFloat64 (q : ℚ) : Float64 :=
  if q = 0 then .fin 0
  else
    let e := max (floorLog2 q) (-1022)
    let ulp := pow2 (e - 52)
    let r := (roundHalfEven (|q| / ulp) : ℚ) * ulp
    if pow2 1024 ≤ r then .inf (decide (q < 0))
    else .fin (if q < 0 then -r else r)

/-- The sum `x + y` of two `float64`. -/
def Float64.add : Float64 → Float64 → Float64
  | .nan, _ => .nan
  | _, .nan => .nan
  | .inf s, .inf t => if s = t then .inf s else .nan
  | .inf s, .fin _ => .inf s
  | .fin _, .inf t => .inf t
  | .fin a, .fin b => roundFloat64 (a + b)

/-- The quotient `x / y` of two `float64`; a zero divisor is taken as `+0` (the
source divides only by a positive count). -/
def Float64.div : Float64 → Float64 → Float64
  | .nan, _ => .nan
  | _, .nan => .nan
  | .inf _, .inf _ => .nan
  | .inf s, .fin b => .inf (s != decide (b < 0))
  | .fin _, .inf _ => .fin 0
  | .fin a, .fin b =>
    if b = 0 then (if a = 0 then .nan else .inf (decide (a < 0)))
    else roundFloat64 (a / b)

/-- The comparison `x < y` of two `float64`: false when either is a NaN. -/
def Float64.lt : Float64 → Float64 → Bool
  | .nan, _ => false
  | _, .nan => false
  | .fin a, .fin b => decide (a < b)
  | .fin _, .inf t => !t
  | .inf s, .fin _ => s
  | .inf s, .inf t => s && !t

/-- The conversion `float64(n)` of an integer. -/
def Float64.ofInt (n : Int) : Float64 := roundFloat64 (n : ℚ)

/-! ## internal/redis/client.go -/

/-- The struct `TimeSeriesPoint`. -/
structure TimeSeriesPoint where
  Timestamp : Int
  Value : Float64
  Labels : GoMap String
  deriving DecidableEq, Repr

/-- An argument of `client.Do`. -/
inductive Arg where
  | s (v : String)
  | i (v : Int)
  deriving DecidableEq, Repr

/-- The Redis side of the environment. -/
structure Store where
  /-- The call `r.client.Do(ctx, args...).Result()`. -/
  Do : List Arg → Except String Reply
  /-- The call `strconv.ParseFloat(s, 64)`: the value and the error it returns. -/
  ParseFloat : String → Float64 × Option NumErr
  /-- The order in which `range filters` visits the filter map. -/
  rangeFilters : GoMap String → List (String × String)

/-- The point loop shared by `GetTimeSeriesData` (lines 49-60, `labels` being the
fresh empty map) and `GetMultipleTimeSeriesData` (lines 110-121): an item that is
not a list of at least two elements is skipped, both parse errors are dropped. -/
def decodePoints (st : Store) (labels : GoMap String) :
    List Reply → List TimeSeriesPoint → Except Fault (List TimeSeriesPoint)
  | [], points => .ok points
  | item :: rest, points =>
    match item with
    | .arr (p0 :: p1 :: _) =>
      match asBytes p0 with
      | .error f => .error f
      | .ok tsText =>
        match asBytes p1 with
        | .error f => .error f
        | .ok valText =>
          decodePoints st labels rest
            (points ++ [{ Timestamp := (ParseInt tsText).1,
                          Value := (st.ParseFloat valText).1,
                          Labels := labels }])
    | _ => decodePoints st labels rest points

/-- Go `GetTimeSeriesData`. -/
def GetTimeSeriesData (st : Store) (key : String) (startTime endTime : Int) :
    Except Fault (List TimeSeriesPoint) :=
  match st.Do [.s "TS.RANGE", .s key, .i startTime, .i endTime] with
  | .error e => .error (.error ("failed to get time series data: " ++ e))
  | .ok result =>
    match result with
    | .arr resultSlice => decodePoints st [] resultSlice []
    | _ => .ok []

/-- The label loop of `GetMultipleTimeSeriesData` (lines 98-104). -/
def decodeLabels : List Reply → GoMap String → Except Fault (GoMap String)
  | [], labels => .ok labels
  | label :: rest, labels =>
    match label with
    | .arr (l0 :: l1 :: _) =>
      match asBytes l0 with
      | .error f => .error f
      | .ok key =>
        match asBytes l1 with
        | .error f => .error f
        | .ok value => decodeLabels rest (labels.set key value)
    | _ => decodeLabels rest labels

/-- Lines 96-105: the label map of one series entry. -/
def seriesLabels (s1 : Reply) : Except Fault (GoMap String) :=
  match s1 with
  | .arr labelsData => decodeLabels labelsData []
  | _ => .ok []

/-- Lines 108-122: the points of one series entry. -/
def seriesPoints (st : Store) (labels : GoMap String) (s2 : Reply) :
    Except Fault (List TimeSeriesPoint) :=
  match s2 with
  | .arr dataPoints => decodePoints st labels dataPoints []
  | _ => .ok []

/-- The series loop of `GetMultipleTimeSeriesData` (lines 90-126). -/
def decodeSeries (st : Store) :
    List Reply → GoMap (List TimeSeriesPoint) → Except Fault (GoMap (List TimeSeriesPoint))
  | [], seriesData => .ok seriesData
  | series :: rest, seriesData =>
    match series with
    | .arr (s0 :: s1 :: s2 :: _) =>
      match asBytes s0 with
      | .error f => .error f
      | .ok keyName =>
        match seriesLabels s1 with
        | .error f => .error f
        | .ok labels =>
          match seriesPoints st labels s2 with
          | .error f => .error f
          | .ok points => decodeSeries st rest (seriesData.set keyName points)
    | _ => decodeSeries st rest seriesData

/-- The arguments of the `TS.MRANGE` call (lines 69-80). -/
def mrangeArgs (st : Store) (filters : GoMap String) (startTime endTime : Int) : List Arg :=
  let filterParts := (st.rangeFilters filters).map (fun kv => kv.1 ++ "=" ++ kv.2)
  if filterParts.length > 0 then
    [.s "TS.MRANGE", .i startTime, .i endTime, .s "FILTER", .s (" ".intercalate filterParts)]
  else
    [.s "TS.MRANGE", .i startTime, .i endTime]

/-- Go `GetMultipleTimeSeriesData`. -/
def GetMultipleTimeSeriesData (st : Store) (filters : GoMap String) (startTime endTime : Int) :
    Except Fault (GoMap (List TimeSeriesPoint)) :=
  match st.Do (mrangeArgs st filters startTime endTime) with
  | .error e => .error (.error ("failed to get multiple time series data: " ++ e))
  | .ok result =>
    match result with
    | .arr resultSlice => decodeSeries st resultSlice []
    | _ => .ok []

/-- The arguments of one aggregation query of `GetMetricSummary`. -/
def aggArgs (key : String) (startTime endTime : Int) (fn : String) : List Arg :=
  [.s "TS.RANGE", .s key, .i startTime, .i endTime, .s "AGGREGATION", .s fn, .s "3600000"]

/-- The bucket loop of `GetMetricSummary` (lines 161-167): the running total and
the number of buckets read. -/
def avgLoop (st : Store) : List Reply → Float64 → Nat → Except Fault (Float64 × Nat)
  | [], totalAvg, count => .ok (totalAvg, count)
  | item :: rest, totalAvg, count =>
    match item with
    | .arr (_ :: p1 :: _) =>
      match asBytes p1 with
      | .error f => .error f
      | .ok valText => avgLoop st rest (totalAvg.add (st.ParseFloat valText).1) (count + 1)
    | _ => avgLoop st rest totalAvg count

/-- Lines 155-171 of `GetMetricSummary`: the fresh summary map after the avg reply
has been processed. -/
def averageEntry (st : Store) (avgResult : Reply) : Except Fault (GoMap Float64) :=
  match avgResult with
  | .arr (a :: avgSlice) =>
    match avgLoop st (a :: avgSlice) (.fin 0) 0 with
    | .error f => .error f
    | .ok (totalAvg, count) =>
      if count > 0 then .ok (GoMap.set [] "average" (totalAvg.div (Float64.ofInt count)))
      else .ok []
  | _ => .ok []

/-- Lines 155-177 of `GetMetricSummary`: the summary built from the avg reply. -/
def buildSummary (st : Store) (avgResult : Reply) : Except Fault (GoMap Float64) :=
  match averageEntry st avgResult with
  | .error f => .error f
  | .ok summary => .ok ((summary.set "max" (.fin 0)).set "min" (.fin 0))

/-- Go `GetMetricSummary`. -/
def GetMetricSummary (st : Store) (key : String) (startTime endTime : Int) :
    Except Fault (GoMap Float64) :=
  match st.Do (aggArgs key startTime endTime "avg") with
  | .error e => .error (.error ("failed to get average: " ++ e))
  | .ok avgResult =>
    match st.Do (aggArgs key startTime endTime "max") with
    | .error e => .error (.error ("failed to get max: " ++ e))
    | .ok _ =>
      match st.Do (aggArgs key startTime endTime "min") with
      | .error e => .error (.error ("failed to get min: " ++ e))
      | .ok _ => buildSummary st avgResult

/-! ## internal/service/pdf_service.go -/

abbrev Bytes := List Nat

/-- An argument of a `fmt.Sprintf` call. -/
inductive FmtArg where
  | str (s : String)
  | int (n : Int)
  | float (x : Float64)
  /-- The string `time.Unix(sec, 0).Format(layout)`. -/
  | time (layout : String) (sec : Int)
  deriving DecidableEq, Repr

/-- The text of a PDF cell or of a log line. -/
inductive Text where
  | lit (s : String)
  /-- The string `fmt.Sprintf(format, args...)`. -/
  | sprintf (format : String) (args : List FmtArg)
  /-- The string `time.Unix(sec, 0).Format(layout)`. -/
  | time (layout : String) (sec : Int)
  /-- The concatenation of the strings `fmt.Sprintf(format, k, v)` over `parts`. -/
  | join (format : String) (parts : List (String × String))
  deriving DecidableEq, Repr

/-- A call on the `fpdf` document. -/
inductive PdfOp where
  | New (orientation unit size fontDir : String)
  | AddPage
  | SetFont (family style : String) (size : Nat)
  | Cell (w h : Nat) (txt : Text)
  | Ln (h : Nat)
  deriving DecidableEq, Repr

/-- The fields of the `chart.Chart` value that depend on the input; the styling
fields are constants of the source. -/
structure Chart where
  Title : String
  SeriesName : String
  XValues : List Int
  YValues : List Float64
  deriving DecidableEq, Repr

/-- The library side of the report service. -/
structure Libs where
  /-- The call `sort.Slice(x, less)`: the slice after the call. -/
  sortSlice : (TimeSeriesPoint → TimeSeriesPoint → Bool) →
    List TimeSeriesPoint → List TimeSeriesPoint
  /-- The call `graph.Render(chart.PNG, &buf)`: the bytes written, or the error. -/
  Render : Chart → Except String Bytes
  /-- The call `pdf.Output(&buf)`: the bytes written, or the error. -/
  Output : List PdfOp → Except String Bytes
  /-- The order in which the summary loop visits `seriesData`. -/
  rangeSummary : GoMap (List TimeSeriesPoint) → List (String × List TimeSeriesPoint)
  /-- The order in which the chart loop visits `seriesData`. -/
  rangeCharts : GoMap (List TimeSeriesPoint) → List (String × List TimeSeriesPoint)
  /-- The order in which `range point.Labels` visits a label map. -/
  rangeLabels : GoMap String → List (String × String)
  /-- The call `time.Parse(time.RFC3339, s)`, as Unix seconds. -/
  parseTime : String → Except String Int
  /-- The string `time.Unix(sec, 0).Format(layout)`. -/
  Format : String → Int → String
  /-- The clock `time.Now()`, as Unix seconds. -/
  now : Int
  /-- The clock `time.Now().UnixNano()`. -/
  nowNano : Int

/-- What `sort.Slice` promises for a `less` that is a strict weak ordering: the
slice is rearranged, and afterwards no later element is less than an earlier one.
Its documentation adds: "The sort is not guaranteed to be stable: equal elements
may be reversed from their original order. For a stable sort, use SliceStable." -/
def SortSliceContract
    (srt : (TimeSeriesPoint → TimeSeriesPoint → Bool) →
      List TimeSeriesPoint → List TimeSeriesPoint) : Prop :=
  ∀ less l, (srt less l).Perm l ∧
    ((∀ a b, less a b = true → less b a = false) →
     (∀ a b c, less a c = true → less a b = true ∨ less b c = true) →
     (srt less l).Pairwise (fun a b => less b a = false))

/-- The comparison function passed to `sort.Slice` (line 207). -/
def lessTimestamp (a b : TimeSeriesPoint) : Bool := decide (a.Timestamp < b.Timestamp)

/-- Lines 205-248 of `generateChart`: the slice after sorting, and the chart built
from it. -/
def prepareChart (lb : Libs) (title : String) (points : List TimeSeriesPoint) :
    List TimeSeriesPoint × Chart :=
  let points := lb.sortSlice lessTimestamp points
  let xValues := points.map (fun point => point.Timestamp.tdiv 1000)
  let yValues := points.map (fun point => point.Value)
  (points, { Title := title, SeriesName := title, XValues := xValues, YValues := yValues })

/-- Go `generateChart`: the caller's slice as the in-place sort leaves it, and the
returned pair. -/
def generateChart (lb : Libs) (title : String) (points : List TimeSeriesPoint) :
    List TimeSeriesPoint × Except String Bytes :=
  let prepared := prepareChart lb title points
  match lb.Render prepared.2 with
  | .error e => (prepared.1, .error ("failed to render chart: " ++ e))
  | .ok buf => (prepared.1, .ok buf)

/-- The statistics loop (lines 123-131) on the triple `(sum, min, max)`. -/
def statsLoop :
    List TimeSeriesPoint → Float64 × Float64 × Float64 → Float64 × Float64 × Float64
  | [], acc => acc
  | point :: rest, (sum, min, max) =>
    statsLoop rest
      (sum.add point.Value,
       if point.Value.lt min then point.Value else min,
       if max.lt point.Value then point.Value else max)

/-- The four numbers printed on a summary line. -/
structure SummaryStats where
  count : Nat
  average : Float64
  min : Float64
  max : Float64
  deriving DecidableEq, Repr

/-- Lines 119-133: the statistics of a series; `points[0]` needs a first point. -/
def seriesStats : List TimeSeriesPoint → Option SummaryStats
  | [] => none
  | p0 :: rest =>
    let acc := statsLoop (p0 :: rest) (.fin 0, p0.Value, p0.Value)
    some { count := (p0 :: rest).length,
           average := acc.1.div (Float64.ofInt (p0 :: rest).length),
           min := acc.2.1,
           max := acc.2.2 }

/-- The two cells and line breaks of one summary entry (lines 115-137). -/
def summaryLine (key : String) (s : SummaryStats) : List PdfOp :=
  [.Cell 0 6 (.sprintf "Metric: %s" [.str key]),
   .Ln 5,
   .Cell 20 5 (.lit ""),
   .Cell 0 5 (.sprintf "Count: %d, Average: %.2f, Min: %.2f, Max: %.2f"
     [.int s.count, .float s.average, .float s.min, .float s.max]),
   .Ln 8]

/-- Body of the summary loop (lines 110-138). -/
def summaryStep (pdf : List PdfOp) (key : String) (points : List TimeSeriesPoint) :
    List PdfOp :=
  match seriesStats points with
  | none => pdf
  | some s => pdf ++ summaryLine key s

/-- One data row of the detail table (lines 180-189). -/
def dataRow (lb : Libs) (point : TimeSeriesPoint) : List PdfOp :=
  [.Cell 50 6 (.time "2006-01-02 15:04:05" (point.Timestamp.tdiv 1000)),
   .Cell 30 6 (.sprintf "%.2f" [.float point.Value]),
   .Cell 0 6 (.join "%s:%s " (lb.rangeLabels point.Labels)),
   .Ln 6]

/-- The truncation marker (line 176). -/
def truncationRow : List PdfOp := [.Cell 0 6 (.lit "... (truncated)")]

/-- The table loop (lines 174-190), `i` being the loop index. -/
def tableLoop (lb : Libs) : List TimeSeriesPoint → Nat → List PdfOp → List PdfOp
  | [], _, pdf => pdf
  | point :: rest, i, pdf =>
    if i ≥ 20 then pdf ++ truncationRow
    else tableLoop lb rest (i + 1) (pdf ++ dataRow lb point)

/-- The page head of a detail page (lines 153-173). -/
def detailHead (key : String) (chartData : Bytes) : List PdfOp :=
  [.AddPage,
   .SetFont "Arial" "B" 12,
   .Cell 0 8 (.sprintf "Chart: %s" [.str key]),
   .Ln 10,
   .SetFont "Arial" "" 10,
   .Cell 0 6 (.lit "[Chart would be displayed here]"),
   .Ln 5,
   .Cell 0 6 (.sprintf "Chart data points: %d" [.int chartData.length]),
   .Ln 10,
   .SetFont "Arial" "B" 10,
   .Cell 50 8 (.lit "Timestamp"),
   .Cell 30 8 (.lit "Value"),
   .Cell 0 8 (.lit "Labels"),
   .Ln 8,
   .SetFont "Arial" "" 8]

/-- State of `generatePDF`: the document, the log, and the charts handed to the
rasterizer so far. -/
structure GenState where
  pdf : List PdfOp
  log : List Text
  rendered : List Chart
  deriving DecidableEq, Repr

/-- Body of the chart loop (lines 141-191). -/
def detailStep (lb : Libs) (s : GenState) (key : String) (points : List TimeSeriesPoint) :
    GenState :=
  match points with
  | [] => s
  | p0 :: rest =>
    let r := generateChart lb key (p0 :: rest)
    match r.2 with
    | .error err =>
      { s with log := s.log ++ [.sprintf "Error generating chart for %s: %v" [.str key, .str err]],
               rendered := s.rendered ++ [(prepareChart lb key (p0 :: rest)).2] }
    | .ok chartData =>
      { s with pdf := tableLoop lb r.1 0 (s.pdf ++ detailHead key chartData),
               rendered := s.rendered ++ [(prepareChart lb key (p0 :: rest)).2] }

/-- Lines 89-108 of `generatePDF`: the title block and the summary heading. -/
def reportHead (lb : Libs) (reportType : String) (startTime endTime : Int) : List PdfOp :=
  [.New "P" "mm" "A4" "",
   .AddPage,
   .SetFont "Arial" "B" 16,
   .Cell 0 10 (.sprintf "Time Series Report - %s" [.str reportType]),
   .Ln 15,
   .SetFont "Arial" "" 10,
   .Cell 0 8 (.sprintf "Generated: %s" [.time "2006-01-02 15:04:05" lb.now]),
   .Ln 5,
   .Cell 0 8 (.sprintf "Period: %s to %s"
     [.time "2006-01-02 15:04:05" startTime, .time "2006-01-02 15:04:05" endTime]),
   .Ln 10,
   .SetFont "Arial" "B" 12,
   .Cell 0 8 (.lit "Summary Statistics"),
   .Ln 8,
   .SetFont "Arial" "" 10]

/-- Lines 89-191 of `generatePDF`: the state when `pdf.Output` is reached. -/
def buildReport (lb : Libs) (reportType : String) (seriesData : GoMap (List TimeSeriesPoint))
    (startTime endTime : Int) : GenState :=
  let pdf := (lb.rangeSummary seriesData).foldl (fun pdf kv => summaryStep pdf kv.1 kv.2)
    (reportHead lb reportType startTime endTime)
  (lb.rangeCharts seriesData).foldl (fun s kv => detailStep lb s kv.1 kv.2)
    { pdf := pdf, log := [], rendered := [] }

/-- Go `generatePDF`. -/
def generatePDF (lb : Libs) (reportType : String) (seriesData : GoMap (List TimeSeriesPoint))
    (_metrics : List String) (startTime endTime : Int) : Except String Bytes :=
  match lb.Output (buildReport lb reportType seriesData startTime endTime).pdf with
  | .error e => .error ("failed to output PDF: " ++ e)
  | .ok buf => .ok buf

/-- The message `GenerateReportRequest`. -/
structure GenerateReportRequest where
  ReportType : String
  Filters : GoMap String
  Metrics : List String
  StartTime : String
  EndTime : String

/-- The message `GenerateReportResponse`. -/
structure GenerateReportResponse where
  ReportId : String
  PdfData : Bytes
  Filename : String
  Success : Bool
  ErrorMessage : String
  deriving DecidableEq, Repr

/-- The gRPC codes used by the service. -/
inductive Code where
  | InvalidArgument
  | Internal
  deriving DecidableEq, Repr

/-- The second return value of `GenerateReport` when it is not nil (a
`status.Errorf` error; the first return value is then nil), or a panic. -/
inductive Failure where
  | status (code : Code) (message : String)
  | panic (msg : String)
  deriving DecidableEq, Repr

/-- Conversion `int64(x)` of a mathematical integer (two's complement wrap). -/
def wrapInt64 (x : Int) : Int := (x + 2 ^ 63) % 2 ^ 64 - 2 ^ 63

/-- Go `generateReportID`. -/
def generateReportID (lb : Libs) : String := "report_" ++ toString lb.nowNano

/-- Go `GenerateReport`. -/
def GenerateReport (st : Store) (lb : Libs) (req : GenerateReportRequest) :
    Except Failure GenerateReportResponse :=
  match lb.parseTime req.StartTime with
  | .error err => .error (.status .InvalidArgument ("invalid start time: " ++ err))
  | .ok startTime =>
    match lb.parseTime req.EndTime with
    | .error err => .error (.status .InvalidArgument ("invalid end time: " ++ err))
    | .ok endTime =>
      match GetMultipleTimeSeriesData st req.Filters
          (wrapInt64 (startTime * 1000)) (wrapInt64 (endTime * 1000)) with
      | .error (.panic msg) => .error (.panic msg)
      | .error (.error err) =>
        .error (.status .Internal ("failed to get time series data: " ++ err))
      | .ok seriesData =>
        match generatePDF lb req.ReportType seriesData req.Metrics startTime endTime with
        | .error err => .error (.status .Internal ("failed to generate PDF: " ++ err))
        | .ok pdfData =>
          .ok { ReportId := generateReportID lb,
                PdfData := pdfData,
                Filename := "report_" ++ req.ReportType ++ "_" ++
                  lb.Format "20060102_150405" lb.now ++ ".pdf",
                Success := true,
                ErrorMessage := "" }

/-! ## sort.Slice

The standard library's `sort.Slice` (`sort/zsortfunc.go`, Go 1.19 and later), which
`generateChart` calls. Indices are `Nat`; the loops carry a fuel that bounds their
number of passes. -/

/-- The element `data[i]` compared with `data[j]`: the call `data.Less(i, j)`. -/
def lessAt {α : Type} (less : α → α → Bool) (data : List α) (i j : Nat) : Bool :=
  match data[i]?, data[j]? with
  | some x, some y => less x y
  | _, _ => false

/-- The call `data.Swap(i, j)`. -/
def swapAt {α : Type} (data : List α) (i j : Nat) : List α :=
  match data[i]?, data[j]? with
  | some x, some y => (data.set i y).set j x
  | _, _ => data

/-- The loop `for i < bound && p(i) { i++ }`: the final `i`. -/
def scanUp (p : Nat → Bool) (bound : Nat) : Nat → Nat → Nat
  | 0, i => i
  | fuel + 1, i => if i < bound ∧ p i = true then scanUp p bound fuel (i + 1) else i

/-- The loop `for i <= j && p(j) { j-- }`: the final `j`. -/
def scanDown (p : Nat → Bool) (i : Nat) : Nat → Nat
  | 0 => 0
  | j + 1 => if i ≤ j + 1 ∧ p (j + 1) = true then scanDown p i j else j + 1

/-- The inner loop of `insertionSort_func`:
`for j := i; j > a && data.Less(j, j-1); j-- { data.Swap(j, j-1) }`. -/
def insertionInner {α : Type} (less : α → α → Bool) (a : Nat) : Nat → List α → List α
  | 0, data => data
  | j + 1, data =>
    if j + 1 > a ∧ lessAt less data (j + 1) j = true then
      insertionInner less a j (swapAt data (j + 1) j)
    else data

/-- The outer loop of `insertionSort_func`: `for i := a + 1; i < b; i++`. -/
def insertionOuter {α : Type} (less : α → α → Bool) (a b : Nat) :
    Nat → Nat → List α → List α
  | 0, _, data => data
  | fuel + 1, i, data =>
    if i < b then insertionOuter less a b fuel (i + 1) (insertionInner less a i data)
    else data

/-- Go `insertionSort_func`: sorts `data[a:b]` by insertion. -/
def insertionSortFunc {α : Type} (less : α → α → Bool) (data : List α) (a b : Nat) :
    List α :=
  insertionOuter less a b (b - a) (a + 1) data

/-- Go `siftDown_func` on `data[lo:hi]` with the heap rooted at offset `first`. -/
def siftDownFunc {α : Type} (less : α → α → Bool) (hi first : Nat) :
    Nat → Nat → List α → List α
  | 0, _, data => data
  | fuel + 1, root, data =>
    let child := 2 * root + 1
    if child ≥ hi then data
    else
      let child :=
        if child + 1 < hi ∧ lessAt less data (first + child) (first + child + 1) = true
        then child + 1 else child
      if lessAt less data (first + root) (first + child) = false then data
      else siftDownFunc less hi first fuel child (swapAt data (first + root) (first + child))

/-- The first loop of `heapSort_func`: `for i := (hi - 1) / 2; i >= 0; i--`. -/
def heapBuild {α : Type} (less : α → α → Bool) (hi first : Nat) : Nat → List α → List α
  | 0, data => siftDownFunc less hi first hi 0 data
  | i + 1, data => heapBuild less hi first i (siftDownFunc less hi first hi (i + 1) data)

/-- The second loop of `heapSort_func`: `for i := hi - 1; i >= 0; i--`. -/
def heapPop {α : Type} (less : α → α → Bool) (first : Nat) : Nat → List α → List α
  | 0, data => siftDownFunc less 0 first 0 0 (swapAt data first first)
  | i + 1, data =>
    heapPop less first i
      (siftDownFunc less (i + 1) first (i + 1) 0 (swapAt data first (first + (i + 1))))

/-- Go `heapSort_func` on `data[a:b]`, `a < b`. -/
def heapSortFunc {α : Type} (less : α → α → Bool) (data : List α) (a b : Nat) : List α :=
  heapPop less a (b - a - 1) (heapBuild less (b - a) a ((b - a - 1) / 2) data)

/-- One step of the `xorshift` generator on `uint64`. -/
def xorshiftNext (r : Nat) : Nat :=
  let r := r ^^^ ((r <<< 13) % 2 ^ 64)
  let r := r ^^^ (r >>> 7)
  r ^^^ ((r <<< 17) % 2 ^ 64)

/-- The loop of `breakPatterns_func`: three swaps around `idx`. -/
def breakLoop {α : Type} (a length modulus idx : Nat) : Nat → Nat → Nat → List α → List α
  | 0, _, _, data => data
  | n + 1, i, random, data =>
    let random := xorshiftNext random
    let other := random % modulus
    let other := if other ≥ length then other - length else other
    breakLoop a length modulus idx n (i + 1) random (swapAt data (idx - 1 + i) (a + other))

/-- Go `breakPatterns_func`. -/
def breakPatternsFunc {α : Type} (data : List α) (a b : Nat) : List α :=
  let length := b - a
  if length ≥ 8 then
    breakLoop a length (2 ^ bitLen length length) (a + (length / 4) * 2 - 1) 3 0 length data
  else data

/-- The hint returned by `choosePivot_func`. -/
inductive SortedHint where
  | unknownHint
  | increasingHint
  | decreasingHint
  deriving DecidableEq, Repr

/-- Go `order2_func`: the two indices in order, and the swap counter. -/
def order2Func {α : Type} (less : α → α → Bool) (data : List α) (a b swaps : Nat) :
    Nat × Nat × Nat :=
  if lessAt less data b a = true then (b, a, swaps + 1) else (a, b, swaps)

/-- Go `median_func`: the index of the median, and the swap counter. -/
def medianFunc {α : Type} (less : α → α → Bool) (data : List α) (a b c swaps : Nat) :
    Nat × Nat :=
  let r1 := order2Func less data a b swaps
  let r2 := order2Func less data r1.2.1 c r1.2.2
  let r3 := order2Func less data r1.1 r2.1 r2.2.2
  (r3.2.1, r3.2.2)

/-- Go `medianAdjacent_func`. -/
def medianAdjacentFunc {α : Type} (less : α → α → Bool) (data : List α) (a swaps : Nat) :
    Nat × Nat :=
  medianFunc less data (a - 1) a (a + 1) swaps

/-- Go `choosePivot_func`: the pivot index and the hint. -/
def choosePivotFunc {α : Type} (less : α → α → Bool) (data : List α) (a b : Nat) :
    Nat × SortedHint :=
  let l := b - a
  let i := a + l / 4 * 1
  let j := a + l / 4 * 2
  let k := a + l / 4 * 3
  if l ≥ 8 then
    let ri := if l ≥ 50 then medianAdjacentFunc less data i 0 else (i, 0)
    let rj := if l ≥ 50 then medianAdjacentFunc less data j ri.2 else (j, ri.2)
    let rk := if l ≥ 50 then medianAdjacentFunc less data k rj.2 else (k, rj.2)
    let r := medianFunc less data ri.1 rj.1 rk.1 rk.2
    if r.2 = 0 then (r.1, .increasingHint)
    else if r.2 = 12 then (r.1, .decreasingHint)
    else (r.1, .unknownHint)
  else (j, .increasingHint)

/-- The loop of `reverseRange_func`. -/
def reverseLoop {α : Type} : Nat → Nat → Nat → List α → List α
  | 0, _, _, data => data
  | fuel + 1, i, j, data =>
    if i < j then reverseLoop fuel (i + 1) (j - 1) (swapAt data i j) else data

/-- Go `reverseRange_func`. -/
def reverseRangeFunc {α : Type} (data : List α) (a b : Nat) : List α :=
  reverseLoop (b - a) a (b - 1) data

/-- The loop `for j := i - 1; j >= 1; j--` of `partialInsertionSort_func`. -/
def shiftLeft {α : Type} (less : α → α → Bool) : Nat → List α → List α
  | 0, data => data
  | j + 1, data =>
    if lessAt less data (j + 1) j = false then data
    else shiftLeft less j (swapAt data (j + 1) j)

/-- The loop `for j := i + 1; j < b; j++` of `partialInsertionSort_func`. -/
def shiftRight {α : Type} (less : α → α → Bool) (b : Nat) : Nat → Nat → List α → List α
  | 0, _, data => data
  | fuel + 1, j, data =>
    if j < b then
      if lessAt less data j (j - 1) = false then data
      else shiftRight less b fuel (j + 1) (swapAt data j (j - 1))
    else data

/-- The loop of `partialInsertionSort_func`: the slice, and whether it is sorted. -/
def partialInsertionLoop {α : Type} (less : α → α → Bool) (a b : Nat) :
    Nat → Nat → List α → List α × Bool
  | 0, _, data => (data, false)
  | steps + 1, i, data =>
    let i := scanUp (fun k => !lessAt less data k (k - 1)) b b i
    if i = b then (data, true)
    else if b - a < 50 then (data, false)
    else
      let data := swapAt data i (i - 1)
      let data := if i - a ≥ 2 then shiftLeft less (i - 1) data else data
      let data := if b - i ≥ 2 then shiftRight less b b (i + 1) data else data
      partialInsertionLoop less a b steps i data

/-- Go `partialInsertionSort_func`. -/
def partialInsertionSortFunc {α : Type} (less : α → α → Bool) (data : List α) (a b : Nat) :
    List α × Bool :=
  partialInsertionLoop less a b 5 (a + 1) data

/-- The loop of `partitionEqual_func`: the final `i`, and the slice. -/
def partitionEqualLoop {α : Type} (less : α → α → Bool) (a : Nat) :
    Nat → Nat → Nat → List α → Nat × List α
  | 0, i, _, data => (i, data)
  | fuel + 1, i, j, data =>
    let i := scanUp (fun k => !lessAt less data a k) (j + 1) (j + 1) i
    let j := scanDown (fun k => lessAt less data a k) i j
    if i > j then (i, data)
    else partitionEqualLoop less a fuel (i + 1) (j - 1) (swapAt data i j)

/-- Go `partitionEqual_func`: the new start, and the slice. -/
def partitionEqualFunc {α : Type} (less : α → α → Bool) (data : List α) (a b pivot : Nat) :
    Nat × List α :=
  partitionEqualLoop less a (b - a) (a + 1) (b - 1) (swapAt data a pivot)

/-- The second loop of `partition_func`: the final `j`, and the slice. -/
def partitionLoop {α : Type} (less : α → α → Bool) (a : Nat) :
    Nat → Nat → Nat → List α → Nat × List α
  | 0, _, j, data => (j, data)
  | fuel + 1, i, j, data =>
    let i := scanUp (fun k => lessAt less data k a) (j + 1) (j + 1) i
    let j := scanDown (fun k => !lessAt less data k a) i j
    if i > j then (j, data)
    else partitionLoop less a fuel (i + 1) (j - 1) (swapAt data i j)

/-- Go `partition_func`: the new pivot index, whether the slice was already
partitioned, and the slice. -/
def partitionFunc {α : Type} (less : α → α → Bool) (data : List α) (a b pivot : Nat) :
    Nat × Bool × List α :=
  let data := swapAt data a pivot
  let i := scanUp (fun k => lessAt less data k a) b b (a + 1)
  let j := scanDown (fun k => !lessAt less data k a) i (b - 1)
  if i > j then (j, true, swapAt data j a)
  else
    let r := partitionLoop less a (b - a) (i + 1) (j - 1) (swapAt data i j)
    (r.1, false, swapAt r.2 r.1 a)

/-- Go `pdqsort_func` on `data[a:b]`. Every pass of its loop and every nested call
works on a shorter range, so `fuel` above `b - a` is never used up. -/
def pdqsortFunc {α : Type} (less : α → α → Bool) :
    Nat → List α → Nat → Nat → Nat → Bool → Bool → List α
  | 0, data, _, _, _, _, _ => data
  | fuel + 1, data, a, b, limit, wasBalanced, wasPartitioned =>
    let length := b - a
    if length ≤ 12 then insertionSortFunc less data a b
    else if limit = 0 then heapSortFunc less data a b
    else
      let data := if wasBalanced then data else breakPatternsFunc data a b
      let limit := if wasBalanced then limit else limit - 1
      let chosen := choosePivotFunc less data a b
      let decreasing : Bool := chosen.2 = .decreasingHint
      let data := if decreasing then reverseRangeFunc data a b else data
      let pivot := if decreasing then (b - 1) - (chosen.1 - a) else chosen.1
      let hint := if decreasing then SortedHint.increasingHint else chosen.2
      let tried :=
        if wasBalanced ∧ wasPartitioned ∧ hint = .increasingHint then
          partialInsertionSortFunc less data a b
        else (data, false)
      if tried.2 then tried.1
      else
        let data := tried.1
        if a > 0 ∧ lessAt less data (a - 1) pivot = false then
          let r := partitionEqualFunc less data a b pivot
          pdqsortFunc less fuel r.2 r.1 b limit wasBalanced wasPartitioned
        else
          let r := partitionFunc less data a b pivot
          let mid := r.1
          let leftLen := mid - a
          let rightLen := b - mid
          let balanceThreshold := length / 8
          if leftLen < rightLen then
            pdqsortFunc less fuel (pdqsortFunc less fuel r.2.2 a mid limit true true)
              (mid + 1) b limit (decide (leftLen ≥ balanceThreshold)) r.2.1
          else
            pdqsortFunc less fuel (pdqsortFunc less fuel r.2.2 (mid + 1) b limit true true)
              a mid limit (decide (rightLen ≥ balanceThreshold)) r.2.1

/-- Go `sort.Slice(x, less)` (Go 1.19 and later): pattern-defeating quicksort with
the depth limit `bits.Len(uint(length))`. -/
def sortSliceFunc {α : Type} (less : α → α → Bool) (data : List α) : List α :=
  pdqsortFunc less (data.length + 1) data 0 data.length
    (bitLen data.length data.length) true true

/-! ## Reply shapes -/

/-- The texts of one series entry: its name, its label pairs and its points as
(timestamp text, value text). -/
structure SeriesEntry where
  name : String
  labels : List (String × String)
  points : List (String × String)

/-- A two-element list of `[]byte` values, the dynamic type that the decoders
assert. The client does not deliver this shape (see `Reply`). -/
def bytesPair (p : String × String) : Reply := .arr [.bytes p.1, .bytes p.2]

/-- A series entry whose name, labels and points are all `[]byte` values, the
dynamic type that the decoders assert. The client does not deliver this shape. -/
def bytesEntry (e : SeriesEntry) : Reply :=
  .arr [.bytes e.name, .arr (e.labels.map bytesPair), .arr (e.points.map bytesPair)]

/-- The point decoded from a (timestamp text, value text) pair. -/
def decodedPoint (st : Store) (labels : GoMap String) (p : String × String) :
    TimeSeriesPoint :=
  { Timestamp := (ParseInt p.1).1, Value := (st.ParseFloat p.2).1, Labels := labels }

/-- A point of a range reply as the client delivers it: the timestamp as an
integer reply (`int64`), the value as a bulk reply (Go `string`). -/
def clientPoint (ts : Int) (value : String) : Reply := .arr [.int ts, .str value]

/-- A series entry of a `TS.MRANGE` reply as the client delivers it: the name and
the label texts as Go `string`, the points as `clientPoint`. -/
def clientEntry (name : String) (labels : List (String × String))
    (points : List (Int × String)) : Reply :=
  .arr [.str name,
        .arr (labels.map (fun kv => .arr [.str kv.1, .str kv.2])),
        .arr (points.map (fun p => clientPoint p.1 p.2))]

/-! ## Closed forms used in the proofs -/

/-- The calls one series adds to the document in the chart loop. -/
def detailOps (lb : Libs) (key : String) (points : List TimeSeriesPoint) : List PdfOp :=
  match points with
  | [] => []
  | p0 :: rest =>
    match lb.Render (prepareChart lb key (p0 :: rest)).2 with
    | .error _ => []
    | .ok chartData =>
      detailHead key chartData ++ tableLoop lb (lb.sortSlice lessTimestamp (p0 :: rest)) 0 []

/-- The charts one series hands to the rasterizer in the chart loop. -/
def detailCharts (lb : Libs) (key : String) (points : List TimeSeriesPoint) : List Chart :=
  match points with
  | [] => []
  | p0 :: rest => [(prepareChart lb key (p0 :: rest)).2]

/-! ## Sample environment -/

/-- A stable insertion sort: one implementation that meets `SortSliceContract`. -/
def insertionSortSlice (less : TimeSeriesPoint → TimeSeriesPoint → Bool)
    (l : List TimeSeriesPoint) : List TimeSeriesPoint :=
  l.insertionSort (fun a b => less b a = false)

/-- A point without labels. -/
def samplePoint (ts : Int) (v : ℚ) : TimeSeriesPoint :=
  { Timestamp := ts, Value := .fin v, Labels := [] }

/-- Libraries in which the rasterizer fails exactly for the chart titled `mem`, the
serializer returns one byte per call, and maps are visited in entry order. -/
def sampleLibs : Libs :=
  { sortSlice := insertionSortSlice,
    Render := fun c => if c.Title = "mem" then .error "render failed" else .ok [137, 80, 78, 71],
    Output := fun ops => .ok (ops.map (fun _ => 0)),
    rangeSummary := fun m => m,
    rangeCharts := fun m => m,
    rangeLabels := fun m => m,
    parseTime := fun s => if s = "" then .error "cannot parse" else .ok 1704067200,
    Format := fun _ _ => "20240101_000000",
    now := 1704067200,
    nowNano := 1704067200000000000 }

/-- The sample libraries with the standard library's `sort.Slice`. -/
def goLibs : Libs := { sampleLibs with sortSlice := sortSliceFunc }

/-- Thirteen points, numbered 0 to 12 by their values; the points 1 and 9 share the
timestamp 7000. -/
def tiedPoints : List TimeSeriesPoint :=
  [samplePoint 3000 0, samplePoint 7000 1, samplePoint 1000 2, samplePoint 9000 3,
   samplePoint 2000 4, samplePoint 11000 5, samplePoint 5000 6, samplePoint 12000 7,
   samplePoint 4000 8, samplePoint 7000 9, samplePoint 10000 10, samplePoint 6000 11,
   samplePoint 8000 12]

/-- Twenty-five points, one per second. -/
def longSeries : List TimeSeriesPoint :=
  (List.range 25).map (fun i => samplePoint (1000 * (i : Int)) (i : ℚ))

/-- A collection with a series that renders, one that does not, and an empty one. -/
def sampleSeries : GoMap (List TimeSeriesPoint) :=
  [("cpu", [samplePoint 2000 20, samplePoint 1000 10]),
   ("mem", [samplePoint 1000 5]),
   ("idle", [])]

/-- A parser for the value texts of the samples. -/
def sampleParseFloat (s : String) : Float64 × Option NumErr :=
  if s = "1.5" then (.fin (3 / 2), none)
  else if s = "2.5" then (.fin (5 / 2), none)
  else if s = "1e999" then (.inf false, some .ErrRange)
  else (.fin 0, some .ErrSyntax)

/-- Point texts: a timestamp one past the largest `int64`, a timestamp that is not
a number, a value that is not a number, digits that leave `uint64` before a letter
is met, and a value out of the `float64` range. -/
def samplePairs : List (String × String) :=
  [("9223372036854775808", "1.5"), ("12x", "2.5"), ("1000", "abc"),
   ("99999999999999999999x", "1.5"), ("-9223372036854775809", "1e999")]

/-- The series of the reply to `TS.MRANGE` of the sample store. -/
def sampleEntries : List SeriesEntry :=
  [{ name := "cpu", labels := [("region", "us-east"), ("host", "a")],
     points := [("1000", "1.5"), ("-9223372036854775809", "2.5")] },
   { name := "mem", labels := [("region", "us-east")], points := [("oops", "2.5")] }]

/-- A store whose replies carry `[]byte` values: `TS.MRANGE` is answered with
`sampleEntries` and every other command with `samplePairs`. -/
def sampleStore : Store :=
  { Do := fun args =>
      match args with
      | .s "TS.MRANGE" :: _ => .ok (.arr (sampleEntries.map bytesEntry))
      | _ => .ok (.arr (samplePairs.map bytesPair)),
    ParseFloat := sampleParseFloat,
    rangeFilters := fun m => m }

/-- A store that answers as the client delivers replies: `TS.MRANGE` with the series
`cpu` (label `region=us-east`, one point), an aggregation query with one bucket of
value `4`, and a plain `TS.RANGE` with one point whose value text is `abc`. -/
def clientStore : Store :=
  { Do := fun args =>
      match args with
      | .s "TS.MRANGE" :: _ =>
        .ok (.arr [clientEntry "cpu" [("region", "us-east")] [(1000, "1.5")]])
      | [.s "TS.RANGE", _, _, _, .s "AGGREGATION", _, _] => .ok (.arr [clientPoint 0 "4"])
      | _ => .ok (.arr [clientPoint 1000 "abc"]),
    ParseFloat := sampleParseFloat,
    rangeFilters := fun m => m }

/-- A store whose avg query finds no bucket while the max and min queries find one
bucket each, of values `99` and `1`. -/
def emptyAvgStore : Store :=
  { Do := fun args =>
      match args with
      | [.s "TS.RANGE", _, _, _, .s "AGGREGATION", .s "avg", _] => .ok (.arr [])
      | [.s "TS.RANGE", _, _, _, .s "AGGREGATION", .s "max", _] =>
        .ok (.arr [clientPoint 0 "99"])
      | _ => .ok (.arr [clientPoint 0 "1"]),
    ParseFloat := sampleParseFloat,
    rangeFilters := fun m => m }

/-- A store whose every query fails in the transport. -/
def downStore : Store :=
  { Do := fun _ => .error "dial tcp 127.0.0.1:6380: connect: connection refused",
    ParseFloat := sampleParseFloat,
    rangeFilters := fun m => m }

/-- The request of the scenario: one label filter and a one-day window. -/
def sampleRequest : GenerateReportRequest :=
  { ReportType := "daily",
    Filters := [("region", "us-east")],
    Metrics := ["cpu_usage"],
    StartTime := "2024-01-01T00:00:00Z",
    EndTime := "2024-01-02T00:00:00Z" }

/-! ## Helper lemmas -/

/-- Go integer division by 1000 (truncation toward zero) is monotone. -/
theorem tdiv_thousand_mono (a b : Int) (h : a ≤ b) : a.tdiv 1000 ≤ b.tdiv 1000 := by
  rcases le_or_lt 0 a with ha | ha
  · rw [Int.tdiv_eq_ediv ha (by norm_num), Int.tdiv_eq_ediv (le_trans ha h) (by norm_num)]
    omega
  · have e1 : a.tdiv 1000 = -((-a) / 1000) := by
      rw [← Int.tdiv_eq_ediv (by omega) (by norm_num), Int.neg_tdiv, neg_neg]
    rcases le_or_lt 0 b with hb | hb
    · rw [e1, Int.tdiv_eq_ediv hb (by norm_num)]
      omega
    · have e2 : b.tdiv 1000 = -((-b) / 1000) := by
        rw [← Int.tdiv_eq_ediv (by omega) (by norm_num), Int.neg_tdiv, neg_neg]
      rw [e1, e2]
      omega

theorem lessTimestamp_asymm (a b : TimeSeriesPoint) :
    lessTimestamp a b = true → lessTimestamp b a = false := by
  simp only [lessTimestamp, decide_eq_true_eq, decide_eq_false_iff_not]
  omega

theorem lessTimestamp_negTrans (a b c : TimeSeriesPoint) :
    lessTimestamp a c = true → lessTimestamp a b = true ∨ lessTimestamp b c = true := by
  simp only [lessTimestamp, decide_eq_true_eq]
  omega

theorem insertionSort_contract_aux
    (less : TimeSeriesPoint → TimeSeriesPoint → Bool)
    (h1 : ∀ a b, less a b = true → less b a = false)
    (h2 : ∀ a b c, less a c = true → less a b = true ∨ less b c = true)
    (l : List TimeSeriesPoint) :
    (l.insertionSort (fun a b => less b a = false)).Pairwise (fun a b => less b a = false) := by
  haveI : IsTotal TimeSeriesPoint (fun a b => less b a = false) :=
    ⟨fun a b => by
      cases hab : less a b
      · exact Or.inr rfl
      · exact Or.inl (h1 a b hab)⟩
  haveI : IsTrans TimeSeriesPoint (fun a b => less b a = false) :=
    ⟨fun a b c hab hbc => by
      cases hca : less c a
      · rfl
      · rcases h2 c b a hca with h | h
        · simp [h] at hbc
        · simp [h] at hab⟩
  exact List.sorted_insertionSort (fun a b => less b a = false) l

theorem insertionSortSlice_contract : SortSliceContract insertionSortSlice := by
  intro less l
  exact ⟨List.perm_insertionSort _ l, fun h1 h2 => insertionSort_contract_aux less h1 h2 l⟩

/-- Under the contract of `sort.Slice` the slice is ordered by timestamp. -/
theorem sortSlice_sorted (lb : Libs) (h : SortSliceContract lb.sortSlice)
    (points : List TimeSeriesPoint) :
    (lb.sortSlice lessTimestamp points).Pairwise (fun a b => a.Timestamp ≤ b.Timestamp) := by
  have hs := (h lessTimestamp points).2 lessTimestamp_asymm lessTimestamp_negTrans
  refine hs.imp ?_
  intro a b hab
  simp only [lessTimestamp, decide_eq_false_iff_not] at hab
  omega

theorem generateChart_fst (lb : Libs) (title : String) (points : List TimeSeriesPoint) :
    (generateChart lb title points).1 = lb.sortSlice lessTimestamp points := by
  simp only [generateChart]
  cases lb.Render (prepareChart lb title points).2 <;> rfl

theorem filter_timestamp_length_le_one (l : List TimeSeriesPoint) (t : Int)
    (hd : l.Pairwise (fun a b => a.Timestamp ≠ b.Timestamp)) :
    (l.filter (fun p => decide (p.Timestamp = t))).length ≤ 1 := by
  induction l with
  | nil => simp
  | cons a l ih =>
    rw [List.pairwise_cons] at hd
    by_cases hat : a.Timestamp = t
    · have hnil : l.filter (fun p => decide (p.Timestamp = t)) = [] := by
        rw [List.filter_eq_nil_iff]
        intro b hb
        have := hd.1 b hb
        simp only [decide_eq_true_eq]
        omega
      simp [List.filter_cons, hat, hnil]
    · simpa [List.filter_cons, hat] using ih hd.2

theorem perm_eq_of_length_le_one {α : Type} (l₁ l₂ : List α) (hp : l₁.Perm l₂)
    (hl : l₂.length ≤ 1) : l₁ = l₂ := by
  match l₂, hl with
  | [], _ => exact List.Perm.eq_nil hp
  | [x], _ => exact List.perm_singleton.1 hp
  | _ :: _ :: _, hl => simp at hl

theorem generateChart_snd (lb : Libs) (title : String) (points : List TimeSeriesPoint) :
    (generateChart lb title points).2 =
      match lb.Render (prepareChart lb title points).2 with
      | .error e => .error ("failed to render chart: " ++ e)
      | .ok buf => .ok buf := by
  simp only [generateChart]
  cases lb.Render (prepareChart lb title points).2 <;> rfl

theorem summaryStep_append (pdf : List PdfOp) (key : String) (points : List TimeSeriesPoint) :
    summaryStep pdf key points = pdf ++ summaryStep [] key points := by
  unfold summaryStep
  cases seriesStats points <;> simp

theorem foldl_summaryStep (l : List (String × List TimeSeriesPoint)) (pdf : List PdfOp) :
    l.foldl (fun pdf kv => summaryStep pdf kv.1 kv.2) pdf =
      pdf ++ l.flatMap (fun kv => summaryStep [] kv.1 kv.2) := by
  induction l generalizing pdf with
  | nil => simp
  | cons kv l ih =>
    rw [List.foldl_cons, ih, summaryStep_append, List.flatMap_cons, List.append_assoc]

/-- Closed form of the table loop started at index `i`. -/
theorem tableLoop_eq (lb : Libs) (pts : List TimeSeriesPoint) (i : Nat) (pdf : List PdfOp) :
    tableLoop lb pts i pdf =
      pdf ++ (pts.take (20 - i)).flatMap (dataRow lb) ++
        (if pts.length > 20 - i then truncationRow else []) := by
  induction pts generalizing i pdf with
  | nil => simp [tableLoop]
  | cons point rest ih =>
    unfold tableLoop
    by_cases hi : i ≥ 20
    · have h0 : 20 - i = 0 := by omega
      simp [hi, h0]
    · have h1 : 20 - i = (20 - (i + 1)) + 1 := by omega
      rw [if_neg hi, ih, h1, List.take_succ_cons, List.flatMap_cons]
      have hlen : ((point :: rest).length > 20 - (i + 1) + 1) ↔ (rest.length > 20 - (i + 1)) := by
        simp
      by_cases hr : rest.length > 20 - (i + 1)
      · rw [if_pos hr, if_pos (hlen.2 hr)]
        simp [List.append_assoc]
      · rw [if_neg hr, if_neg (fun h => hr (hlen.1 h))]
        simp [List.append_assoc]

theorem detailStep_pdf (lb : Libs) (s : GenState) (key : String)
    (points : List TimeSeriesPoint) :
    (detailStep lb s key points).pdf = s.pdf ++ detailOps lb key points := by
  cases points with
  | nil => simp [detailStep, detailOps]
  | cons p0 rest =>
    simp only [detailStep, detailOps, generateChart_snd, generateChart_fst]
    cases lb.Render (prepareChart lb key (p0 :: rest)).2 with
    | error e => simp
    | ok buf =>
      simp only []
      rw [tableLoop_eq, tableLoop_eq lb _ 0 []]
      simp [List.append_assoc]

theorem detailStep_rendered (lb : Libs) (s : GenState) (key : String)
    (points : List TimeSeriesPoint) :
    (detailStep lb s key points).rendered = s.rendered ++ detailCharts lb key points := by
  cases points with
  | nil => simp [detailStep, detailCharts]
  | cons p0 rest =>
    simp only [detailStep, detailCharts, generateChart_snd]
    cases lb.Render (prepareChart lb key (p0 :: rest)).2 <;> simp

theorem foldl_detailStep_pdf (lb : Libs) (l : List (String × List TimeSeriesPoint))
    (s : GenState) :
    (l.foldl (fun s kv => detailStep lb s kv.1 kv.2) s).pdf =
      s.pdf ++ l.flatMap (fun kv => detailOps lb kv.1 kv.2) := by
  induction l generalizing s with
  | nil => simp
  | cons kv l ih =>
    rw [List.foldl_cons, ih, detailStep_pdf, List.flatMap_cons, List.append_assoc]

theorem foldl_detailStep_rendered (lb : Libs) (l : List (String × List TimeSeriesPoint))
    (s : GenState) :
    (l.foldl (fun s kv => detailStep lb s kv.1 kv.2) s).rendered =
      s.rendered ++ l.flatMap (fun kv => detailCharts lb kv.1 kv.2) := by
  induction l generalizing s with
  | nil => simp
  | cons kv l ih =>
    rw [List.foldl_cons, ih, detailStep_rendered, List.flatMap_cons, List.append_assoc]

/-- The document of `generatePDF`: the head, then the summary entries in the order
of the first loop, then the detail pages in the order of the second loop. -/
theorem buildReport_pdf (lb : Libs) (reportType : String)
    (seriesData : GoMap (List TimeSeriesPoint)) (startTime endTime : Int) :
    (buildReport lb reportType seriesData startTime endTime).pdf =
      reportHead lb reportType startTime endTime ++
        (lb.rangeSummary seriesData).flatMap (fun kv => summaryStep [] kv.1 kv.2) ++
        (lb.rangeCharts seriesData).flatMap (fun kv => detailOps lb kv.1 kv.2) := by
  simp only [buildReport, foldl_detailStep_pdf, foldl_summaryStep]

theorem buildReport_rendered (lb : Libs) (reportType : String)
    (seriesData : GoMap (List TimeSeriesPoint)) (startTime endTime : Int) :
    (buildReport lb reportType seriesData startTime endTime).rendered =
      (lb.rangeCharts seriesData).flatMap (fun kv => detailCharts lb kv.1 kv.2) := by
  simp only [buildReport, foldl_detailStep_rendered, List.nil_append]

theorem mem_tableLoop_nil (lb : Libs) (pts : List TimeSeriesPoint) (op : PdfOp)
    (h : op ∈ tableLoop lb pts 0 []) :
    (∃ p ∈ pts, op ∈ dataRow lb p) ∨ op ∈ truncationRow := by
  rw [tableLoop_eq] at h
  simp only [List.nil_append, List.mem_append, List.mem_flatMap] at h
  rcases h with ⟨p, hp, hop⟩ | h
  · exact Or.inl ⟨p, List.mem_of_mem_take hp, hop⟩
  · split_ifs at h
    · exact Or.inr h
    · simp at h

theorem metricCell_mem_summaryStep (key k : String) (points : List TimeSeriesPoint) :
    PdfOp.Cell 0 6 (.sprintf "Metric: %s" [.str key]) ∈ summaryStep [] k points ↔
      k = key ∧ points ≠ [] := by
  cases points with
  | nil => simp [summaryStep, seriesStats]
  | cons p0 rest =>
    simp only [summaryStep, seriesStats, summaryLine]
    simp
    exact eq_comm

theorem chartCell_not_mem_summaryStep (key k : String) (points : List TimeSeriesPoint) :
    PdfOp.Cell 0 8 (.sprintf "Chart: %s" [.str key]) ∉ summaryStep [] k points := by
  cases points with
  | nil => simp [summaryStep, seriesStats]
  | cons p0 rest => simp [summaryStep, seriesStats, summaryLine]

theorem chartCell_mem_detailOps (lb : Libs) (key k : String) (points : List TimeSeriesPoint) :
    PdfOp.Cell 0 8 (.sprintf "Chart: %s" [.str key]) ∈ detailOps lb k points ↔
      k = key ∧ points ≠ [] ∧ ∃ buf, lb.Render (prepareChart lb k points).2 = .ok buf := by
  cases points with
  | nil => simp [detailOps]
  | cons p0 rest =>
    simp only [detailOps]
    cases hr : lb.Render (prepareChart lb k (p0 :: rest)).2 with
    | error e => simp
    | ok buf =>
      simp only [List.mem_append]
      constructor
      · rintro (h | h)
        · simp [detailHead] at h
          exact ⟨h.symm, by simp, buf, rfl⟩
        · rcases mem_tableLoop_nil lb _ _ h with ⟨p, _, hp⟩ | hp
          · simp [dataRow] at hp
          · simp [truncationRow] at hp
      · rintro ⟨rfl, _, _⟩
        exact Or.inl (by simp [detailHead])

theorem metricCell_not_mem_detailOps (lb : Libs) (key k : String)
    (points : List TimeSeriesPoint) :
    PdfOp.Cell 0 6 (.sprintf "Metric: %s" [.str key]) ∉ detailOps lb k points := by
  cases points with
  | nil => simp [detailOps]
  | cons p0 rest =>
    simp only [detailOps]
    cases hr : lb.Render (prepareChart lb k (p0 :: rest)).2 with
    | error e => simp
    | ok buf =>
      simp only [List.mem_append]
      rintro (h | h)
      · simp [detailHead] at h
      · rcases mem_tableLoop_nil lb _ _ h with ⟨p, _, hp⟩ | hp
        · simp [dataRow] at hp
        · simp [truncationRow] at hp

theorem flatMap_infix_of_mem {α β : Type} (f : α → List β) (l : List α) (a : α)
    (h : a ∈ l) : f a <:+: l.flatMap f := by
  induction l with
  | nil => simp at h
  | cons b l ih =>
    rw [List.flatMap_cons]
    rcases List.mem_cons.1 h with rfl | h
    · exact List.infix_append' [] (f a) (l.flatMap f)
    · obtain ⟨u, v, huv⟩ := ih h
      exact ⟨f b ++ u, v, by rw [← huv]; simp [List.append_assoc]⟩

theorem mem_unique_of_nodup_keys {V : Type} (m : GoMap V) (hk : (m.map Prod.fst).Nodup)
    (k : String) (a b : V) (ha : (k, a) ∈ m) (hb : (k, b) ∈ m) : a = b := by
  induction m with
  | nil => simp at ha
  | cons kv m ih =>
    rw [List.map_cons, List.nodup_cons] at hk
    rcases List.mem_cons.1 ha with ha | ha <;> rcases List.mem_cons.1 hb with hb | hb
    · have := ha.trans hb.symm
      exact (Prod.mk.inj this).2
    · exact absurd (List.mem_map.2 ⟨(k, b), hb, by rw [← ha]⟩) hk.1
    · exact absurd (List.mem_map.2 ⟨(k, a), ha, by rw [← hb]⟩) hk.1
    · exact ih hk.2 ha hb

theorem detailOps_ok (lb : Libs) (key : String) (points : List TimeSeriesPoint)
    (chartData : Bytes) (hne : points ≠ [])
    (hr : lb.Render (prepareChart lb key points).2 = .ok chartData) :
    detailOps lb key points =
      detailHead key chartData ++ tableLoop lb (generateChart lb key points).1 0 [] := by
  cases points with
  | nil => exact absurd rfl hne
  | cons p0 rest => simp only [detailOps, hr, generateChart_fst]

theorem metricCell_mem_doc (lb : Libs) (reportType : String)
    (seriesData : GoMap (List TimeSeriesPoint)) (startTime endTime : Int) (key : String) :
    PdfOp.Cell 0 6 (.sprintf "Metric: %s" [.str key]) ∈
        (buildReport lb reportType seriesData startTime endTime).pdf ↔
      ∃ points, (key, points) ∈ lb.rangeSummary seriesData ∧ points ≠ [] := by
  rw [buildReport_pdf]
  simp only [List.mem_append, List.mem_flatMap, metricCell_mem_summaryStep]
  constructor
  · rintro ((h | ⟨kv, hkv, rfl, hne⟩) | ⟨kv, _, h⟩)
    · simp [reportHead] at h
    · exact ⟨kv.2, hkv, hne⟩
    · exact absurd h (metricCell_not_mem_detailOps lb key kv.1 kv.2)
  · rintro ⟨points, hmem, hne⟩
    exact Or.inl (Or.inr ⟨(key, points), hmem, rfl, hne⟩)

theorem chartCell_mem_doc (lb : Libs) (reportType : String)
    (seriesData : GoMap (List TimeSeriesPoint)) (startTime endTime : Int) (key : String) :
    PdfOp.Cell 0 8 (.sprintf "Chart: %s" [.str key]) ∈
        (buildReport lb reportType seriesData startTime endTime).pdf ↔
      ∃ points, (key, points) ∈ lb.rangeCharts seriesData ∧ points ≠ [] ∧
        ∃ buf, lb.Render (prepareChart lb key points).2 = .ok buf := by
  rw [buildReport_pdf]
  simp only [List.mem_append, List.mem_flatMap, chartCell_mem_detailOps]
  constructor
  · rintro ((h | ⟨kv, _, h⟩) | ⟨kv, hkv, rfl, hne, hbuf⟩)
    · simp [reportHead] at h
    · exact absurd h (chartCell_not_mem_summaryStep key kv.1 kv.2)
    · exact ⟨kv.2, hkv, hne, hbuf⟩
  · rintro ⟨points, hmem, hne, hbuf⟩
    exact Or.inr ⟨(key, points), hmem, rfl, hne, hbuf⟩

theorem summaryLine_infix_doc (lb : Libs) (reportType : String)
    (seriesData : GoMap (List TimeSeriesPoint)) (startTime endTime : Int) (key : String)
    (points : List TimeSeriesPoint) (s : SummaryStats)
    (hmem : (key, points) ∈ lb.rangeSummary seriesData) (hs : seriesStats points = some s) :
    summaryLine key s <:+: (buildReport lb reportType seriesData startTime endTime).pdf := by
  rw [buildReport_pdf]
  have h1 := flatMap_infix_of_mem (fun kv : String × List TimeSeriesPoint =>
    summaryStep [] kv.1 kv.2) _ _ hmem
  have h2 : summaryStep [] key points = summaryLine key s := by
    simp [summaryStep, hs]
  simp only [h2] at h1
  obtain ⟨u, v, huv⟩ := h1
  exact ⟨reportHead lb reportType startTime endTime ++ u,
    v ++ (lb.rangeCharts seriesData).flatMap (fun kv => detailOps lb kv.1 kv.2),
    by rw [← huv]; simp [List.append_assoc]⟩

theorem detailOps_infix_doc (lb : Libs) (reportType : String)
    (seriesData : GoMap (List TimeSeriesPoint)) (startTime endTime : Int) (key : String)
    (points : List TimeSeriesPoint)
    (hmem : (key, points) ∈ lb.rangeCharts seriesData) :
    detailOps lb key points <:+:
      (buildReport lb reportType seriesData startTime endTime).pdf := by
  rw [buildReport_pdf]
  obtain ⟨u, v, huv⟩ := flatMap_infix_of_mem (fun kv : String × List TimeSeriesPoint =>
    detailOps lb kv.1 kv.2) _ _ hmem
  exact ⟨reportHead lb reportType startTime endTime ++
      (lb.rangeSummary seriesData).flatMap (fun kv => summaryStep [] kv.1 kv.2) ++ u,
    v, by rw [← huv]; simp [List.append_assoc]⟩

theorem mem_rendered (lb : Libs) (reportType : String)
    (seriesData : GoMap (List TimeSeriesPoint)) (startTime endTime : Int) (c : Chart)
    (h : c ∈ (buildReport lb reportType seriesData startTime endTime).rendered) :
    ∃ points, (c.Title, points) ∈ lb.rangeCharts seriesData ∧ points ≠ [] := by
  rw [buildReport_rendered, List.mem_flatMap] at h
  obtain ⟨kv, hkv, hc⟩ := h
  obtain ⟨k, pts⟩ := kv
  cases pts with
  | nil => simp [detailCharts] at hc
  | cons p0 rest =>
    simp only [detailCharts, List.mem_singleton] at hc
    subst hc
    exact ⟨p0 :: rest, by simpa [prepareChart] using hkv, by simp⟩

theorem GoMap.get_set_self {V : Type} (m : GoMap V) (k : String) (v : V) :
    (GoMap.set m k v).get k = some v := by
  induction m with
  | nil => simp [GoMap.set, GoMap.get]
  | cons kv m ih =>
    obtain ⟨k', v'⟩ := kv
    by_cases h : k' = k
    · simp [GoMap.set, GoMap.get, h]
    · simp [GoMap.set, GoMap.get, h, ih]

theorem GoMap.get_set_ne {V : Type} (m : GoMap V) (k k' : String) (v : V) (h : k ≠ k') :
    (GoMap.set m k v).get k' = m.get k' := by
  induction m with
  | nil => simp [GoMap.set, GoMap.get, h]
  | cons kv m ih =>
    obtain ⟨k₀, v₀⟩ := kv
    by_cases h0 : k₀ = k
    · subst h0
      simp [GoMap.set, GoMap.get, h]
    · by_cases h1 : k₀ = k'
      · subst h1
        simp [GoMap.set, GoMap.get, h0]
      · simp [GoMap.set, GoMap.get, h0, h1, ih]

/-- A key that the loop never writes keeps its entry. -/
theorem get_foldl_set_of_not_mem {α V : Type} (key : α → String) (val : α → V)
    (l : List α) (acc : GoMap V) (k : String) (h : k ∉ l.map key) :
    (l.foldl (fun m a => GoMap.set m (key a) (val a)) acc).get k = acc.get k := by
  induction l generalizing acc with
  | nil => rfl
  | cons a l ih =>
    rw [List.map_cons, List.mem_cons, not_or] at h
    rw [List.foldl_cons, ih _ h.2, GoMap.get_set_ne _ _ _ _ (fun e => h.1 e.symm)]

/-- With distinct keys, every element written by the loop is found under its key. -/
theorem get_foldl_set_of_mem {α V : Type} (key : α → String) (val : α → V)
    (l : List α) (acc : GoMap V) (hk : (l.map key).Nodup) (a : α) (ha : a ∈ l) :
    (l.foldl (fun m a => GoMap.set m (key a) (val a)) acc).get (key a) = some (val a) := by
  induction l generalizing acc with
  | nil => simp at ha
  | cons b l ih =>
    rw [List.map_cons, List.nodup_cons] at hk
    rw [List.foldl_cons]
    rcases List.mem_cons.1 ha with rfl | ha
    · rw [get_foldl_set_of_not_mem key val l _ _ hk.1, GoMap.get_set_self]
    · exact ih _ hk.2 ha

theorem decodePoints_bytes (st : Store) (labels : GoMap String)
    (pts : List (String × String)) (acc : List TimeSeriesPoint) :
    decodePoints st labels (pts.map bytesPair) acc =
      .ok (acc ++ pts.map (decodedPoint st labels)) := by
  induction pts generalizing acc with
  | nil => simp [decodePoints]
  | cons p pts ih =>
    simp only [List.map_cons, bytesPair, decodePoints, asBytes]
    have := ih (acc ++ [decodedPoint st labels p])
    simp only [bytesPair, decodedPoint] at this
    rw [this]
    simp [decodedPoint]

theorem decodeLabels_bytes (ls : List (String × String)) (acc : GoMap String) :
    decodeLabels (ls.map bytesPair) acc =
      .ok (ls.foldl (fun m kv => GoMap.set m kv.1 kv.2) acc) := by
  induction ls generalizing acc with
  | nil => simp [decodeLabels]
  | cons p ls ih =>
    simp only [List.map_cons, bytesPair, decodeLabels, asBytes, List.foldl_cons]
    have := ih (GoMap.set acc p.1 p.2)
    simp only [bytesPair] at this
    exact this

theorem decodeSeries_bytes (st : Store) (es : List SeriesEntry)
    (acc : GoMap (List TimeSeriesPoint)) :
    decodeSeries st (es.map bytesEntry) acc =
      .ok (es.foldl (fun m e => GoMap.set m e.name
        (e.points.map (decodedPoint st
          (e.labels.foldl (fun m kv => GoMap.set m kv.1 kv.2) [])))) acc) := by
  induction es generalizing acc with
  | nil => simp [decodeSeries]
  | cons e es ih =>
    simp only [List.map_cons, bytesEntry, decodeSeries, asBytes, seriesLabels,
      decodeLabels_bytes, seriesPoints, decodePoints_bytes, List.nil_append,
      List.foldl_cons]
    exact ih _

theorem parseUintLoop_syntax_zero (cs : List Char) (n : Nat) :
    (parseUintLoop cs n).2 = some .ErrSyntax → (parseUintLoop cs n).1 = 0 := by
  induction cs generalizing n with
  | nil => simp [parseUintLoop]
  | cons c cs ih =>
    unfold parseUintLoop
    split_ifs
    · simp
    · simp
    · exact ih _
    · simp

/-- What `ParseInt` returns next to its error: 0 with a syntax error, the bound of
`int64` on the side of the sign with a range error, a value of `int64` with none. -/
theorem ParseInt_error_value (s : String) :
    ((ParseInt s).2 = some .ErrSyntax → (ParseInt s).1 = 0) ∧
    ((ParseInt s).2 = some .ErrRange →
      (ParseInt s).1 = if s.toList.head? = some '-' then minInt64 else maxInt64) ∧
    ((ParseInt s).2 = none → minInt64 ≤ (ParseInt s).1 ∧ (ParseInt s).1 ≤ maxInt64) := by
  unfold ParseInt
  cases hs : s.toList with
  | nil => simp
  | cons c cs =>
    simp only [List.head?_cons, Option.some.injEq]
    split
    · simp
    · rename_i un err hne
      by_cases hc : c = '-'
      · subst hc
        simp only [decide_True, Bool.true_eq_false, false_and, if_false, true_and, if_true]
        split_ifs with h1
        · simp
        · simp only [reduceCtorEq, false_implies, true_implies, true_and]
          simp only [minInt64, maxInt64]
          constructor <;> omega
      · simp only [hc, decide_False, true_and, Bool.false_eq_true, false_and, if_false]
        split_ifs with h1
        · simp
        · simp only [reduceCtorEq, false_implies, true_implies, true_and]
          simp only [minInt64, maxInt64]
          constructor <;> omega

/-- A point entry whose timestamp is an integer reply makes the point loop panic. -/
theorem decodePoints_int_panics (st : Store) (labels : GoMap String) (ts : Int)
    (p1 : Reply) (more rest : List Reply) (acc : List TimeSeriesPoint) :
    decodePoints st labels (.arr (.int ts :: p1 :: more) :: rest) acc =
      .error (.panic "interface conversion: interface {} is int64, not []uint8") := by
  simp only [decodePoints, asBytes]

/-- A series entry whose name is a Go `string` makes the series loop panic. -/
theorem decodeSeries_str_panics (st : Store) (name : String) (s1 s2 : Reply)
    (more rest : List Reply) (acc : GoMap (List TimeSeriesPoint)) :
    decodeSeries st (.arr (.str name :: s1 :: s2 :: more) :: rest) acc =
      .error (.panic "interface conversion: interface {} is string, not []uint8") := by
  simp only [decodeSeries, asBytes]

/-- A bucket whose value is a Go `string` makes the bucket loop panic. -/
theorem avgLoop_str_panics (st : Store) (p0 : Reply) (value : String)
    (more rest : List Reply) (totalAvg : Float64) (count : Nat) :
    avgLoop st (.arr (p0 :: .str value :: more) :: rest) totalAvg count =
      .error (.panic "interface conversion: interface {} is string, not []uint8") := by
  simp only [avgLoop, asBytes]

theorem avgLoop_congr (st st' : Store) (h : st'.ParseFloat = st.ParseFloat)
    (items : List Reply) (t : Float64) (c : Nat) :
    avgLoop st' items t c = avgLoop st items t c := by
  induction items generalizing t c with
  | nil => simp [avgLoop]
  | cons item items ih =>
    unfold avgLoop
    split
    · split
      · rfl
      · rw [h, ih]
    · exact ih _ _

theorem buildSummary_ok (st : Store) (avgResult : Reply) (summary : GoMap Float64)
    (h : buildSummary st avgResult = .ok summary) :
    summary.get "max" = some (.fin 0) ∧ summary.get "min" = some (.fin 0) := by
  unfold buildSummary at h
  cases ha : averageEntry st avgResult with
  | error f => simp [ha] at h
  | ok m =>
    simp only [ha, Except.ok.injEq] at h
    subst h
    refine ⟨?_, GoMap.get_set_self _ _ _⟩
    rw [GoMap.get_set_ne _ _ _ _ (by decide), GoMap.get_set_self]

/-- When the three aggregation queries succeed, the result of `GetMetricSummary` is
the same for every content of the max and min replies, and a returned summary has
max = 0 and min = 0. -/
theorem GetMetricSummary_max_min (st : Store) (key : String) (startTime endTime : Int)
    (avgR maxR minR : Reply)
    (ha : st.Do (aggArgs key startTime endTime "avg") = .ok avgR)
    (hmax : st.Do (aggArgs key startTime endTime "max") = .ok maxR)
    (hmin : st.Do (aggArgs key startTime endTime "min") = .ok minR) :
    (∀ (st' : Store) (maxR' minR' : Reply), st'.ParseFloat = st.ParseFloat →
      st'.Do (aggArgs key startTime endTime "avg") = .ok avgR →
      st'.Do (aggArgs key startTime endTime "max") = .ok maxR' →
      st'.Do (aggArgs key startTime endTime "min") = .ok minR' →
      GetMetricSummary st' key startTime endTime = GetMetricSummary st key startTime endTime) ∧
    (∀ summary, GetMetricSummary st key startTime endTime = .ok summary →
      summary.get "max" = some (.fin 0) ∧ summary.get "min" = some (.fin 0)) := by
  have hres : GetMetricSummary st key startTime endTime = buildSummary st avgR := by
    simp only [GetMetricSummary, ha, hmax, hmin]
  refine ⟨?_, ?_⟩
  · intro st' maxR' minR' hpf ha' hmax' hmin'
    rw [hres]
    simp only [GetMetricSummary, ha', hmax', hmin']
    unfold buildSummary averageEntry
    cases avgR with
    | arr items =>
      cases items with
      | nil => rfl
      | cons a rest => simp only [avgLoop_congr st st' hpf]
    | _ => rfl
  · intro summary hs
    rw [hres] at hs
    exact buildSummary_ok st avgR summary hs

theorem append_ne_empty_of_left (a b : String) (ha : a.length ≠ 0) : a ++ b ≠ "" := by
  intro h
  have hlen := congrArg String.length h
  rw [String.length_append] at hlen
  have h0 : ("" : String).length = 0 := rfl
  omega

theorem getTimeSeries_bytes (st : Store) (key : String) (startTime endTime : Int)
    (pts : List (String × String))
    (hd : st.Do [.s "TS.RANGE", .s key, .i startTime, .i endTime] =
      .ok (.arr (pts.map bytesPair))) :
    GetTimeSeriesData st key startTime endTime = .ok (pts.map (decodedPoint st [])) := by
  simp only [GetTimeSeriesData, hd, decodePoints_bytes, List.nil_append]

theorem getMultiple_bytes (st : Store) (filters : GoMap String) (startTime endTime : Int)
    (es : List SeriesEntry)
    (hd : st.Do (mrangeArgs st filters startTime endTime) = .ok (.arr (es.map bytesEntry))) :
    GetMultipleTimeSeriesData st filters startTime endTime =
      .ok (es.foldl (fun m e => GoMap.set m e.name
        (e.points.map (decodedPoint st
          (e.labels.foldl (fun m kv => GoMap.set m kv.1 kv.2) [])))) []) := by
  simp only [GetMultipleTimeSeriesData, hd, decodeSeries_bytes]

theorem statsLoop_sum_fold (l : List TimeSeriesPoint) (s mn mx : Float64) :
    (statsLoop l (s, mn, mx)).1 = l.foldl (fun acc p => acc.add p.Value) s := by
  induction l generalizing s mn mx with
  | nil => rfl
  | cons p rest ih => simp only [statsLoop, List.foldl_cons, ih]

theorem statsLoop_min_fin (l : List TimeSeriesPoint) (s mx : Float64) (mn : ℚ)
    (hfin : ∀ p ∈ l, ∃ q, p.Value = .fin q) :
    ∃ m, (statsLoop l (s, .fin mn, mx)).2.1 = .fin m ∧ m ≤ mn ∧
      (∀ p ∈ l, ∀ q, p.Value = .fin q → m ≤ q) ∧
      (m = mn ∨ ∃ p ∈ l, p.Value = .fin m) := by
  induction l generalizing s mx mn with
  | nil => exact ⟨mn, rfl, le_refl _, by simp, Or.inl rfl⟩
  | cons p rest ih =>
    obtain ⟨q, hq⟩ := hfin p (List.mem_cons_self _ _)
    have hrest : ∀ p ∈ rest, ∃ q, p.Value = .fin q :=
      fun x hx => hfin x (List.mem_cons_of_mem _ hx)
    have hstep : (if p.Value.lt (.fin mn) then p.Value else .fin mn) =
        Float64.fin (if q < mn then q else mn) := by
      rw [hq]
      by_cases h : q < mn <;> simp [Float64.lt, h]
    simp only [statsLoop, hstep]
    obtain ⟨m, h1, h2, h3, h4⟩ := ih (s.add p.Value) (if mx.lt p.Value then p.Value else mx)
      (if q < mn then q else mn) hrest
    have a1 : (if q < mn then q else mn) ≤ mn := by
      split_ifs with h
      · exact le_of_lt h
      · exact le_refl _
    have a2 : (if q < mn then q else mn) ≤ q := by
      split_ifs with h
      · exact le_refl _
      · exact not_lt.1 h
    have a3 : (if q < mn then q else mn) = mn ∨ (if q < mn then q else mn) = q := by
      split_ifs <;> simp
    refine ⟨m, h1, le_trans h2 a1, ?_, ?_⟩
    · intro x hx y hy
      rcases List.mem_cons.1 hx with rfl | hx
      · rw [hq] at hy
        cases hy
        exact le_trans h2 a2
      · exact h3 x hx y hy
    · rcases h4 with h4 | ⟨x, hx, h4⟩
      · rcases a3 with a3 | a3
        · exact Or.inl (by rw [h4, a3])
        · exact Or.inr ⟨p, List.mem_cons_self _ _, by rw [hq, h4, a3]⟩
      · exact Or.inr ⟨x, List.mem_cons_of_mem _ hx, h4⟩

theorem statsLoop_max_fin (l : List TimeSeriesPoint) (s mn : Float64) (mx : ℚ)
    (hfin : ∀ p ∈ l, ∃ q, p.Value = .fin q) :
    ∃ m, (statsLoop l (s, mn, .fin mx)).2.2 = .fin m ∧ mx ≤ m ∧
      (∀ p ∈ l, ∀ q, p.Value = .fin q → q ≤ m) ∧
      (m = mx ∨ ∃ p ∈ l, p.Value = .fin m) := by
  induction l generalizing s mn mx with
  | nil => exact ⟨mx, rfl, le_refl _, by simp, Or.inl rfl⟩
  | cons p rest ih =>
    obtain ⟨q, hq⟩ := hfin p (List.mem_cons_self _ _)
    have hrest : ∀ p ∈ rest, ∃ q, p.Value = .fin q :=
      fun x hx => hfin x (List.mem_cons_of_mem _ hx)
    have hstep : (if (Float64.fin mx).lt p.Value then p.Value else .fin mx) =
        Float64.fin (if mx < q then q else mx) := by
      rw [hq]
      by_cases h : mx < q <;> simp [Float64.lt, h]
    simp only [statsLoop, hstep]
    obtain ⟨m, h1, h2, h3, h4⟩ := ih (s.add p.Value) (if p.Value.lt mn then p.Value else mn)
      (if mx < q then q else mx) hrest
    have a1 : mx ≤ (if mx < q then q else mx) := by
      split_ifs with h
      · exact le_of_lt h
      · exact le_refl _
    have a2 : q ≤ (if mx < q then q else mx) := by
      split_ifs with h
      · exact le_refl _
      · exact not_lt.1 h
    have a3 : (if mx < q then q else mx) = mx ∨ (if mx < q then q else mx) = q := by
      split_ifs <;> simp
    refine ⟨m, h1, le_trans a1 h2, ?_, ?_⟩
    · intro x hx y hy
      rcases List.mem_cons.1 hx with rfl | hx
      · rw [hq] at hy
        cases hy
        exact le_trans a2 h2
      · exact h3 x hx y hy
    · rcases h4 with h4 | ⟨x, hx, h4⟩
      · rcases a3 with a3 | a3
        · exact Or.inl (by rw [h4, a3])
        · exact Or.inr ⟨p, List.mem_cons_self _ _, by rw [hq, h4, a3]⟩
      · exact Or.inr ⟨x, List.mem_cons_of_mem _ hx, h4⟩

/-- A left-to-right `float64` sum in which no addition rounds is the exact sum. -/
theorem foldl_add_exact (vals : List ℚ) (s0 : ℚ)
    (h : ∀ k, 1 ≤ k → k ≤ vals.length →
      roundFloat64 (s0 + (vals.take k).sum) = .fin (s0 + (vals.take k).sum)) :
    vals.foldl (fun (acc : Float64) (v : ℚ) => acc.add (.fin v)) (.fin s0) = .fin (s0 + vals.sum) := by
  induction vals generalizing s0 with
  | nil => simp
  | cons v vs ih =>
    have h1 := h 1 (le_refl _) (by simp)
    simp only [List.take_succ_cons, List.take_zero, List.sum_cons, List.sum_nil, add_zero] at h1
    have hstep : (Float64.fin s0).add (.fin v) = .fin (s0 + v) := h1
    simp only [List.foldl_cons, hstep, List.sum_cons]
    rw [ih (s0 + v), add_assoc]
    intro k hk1 hk
    have := h (k + 1) (by omega) (by simpa using hk)
    simpa [List.take_succ_cons, List.sum_cons, add_assoc] using this

theorem foldl_add_values (points : List TimeSeriesPoint) (vals : List ℚ)
    (hv : points.map (fun p => p.Value) = vals.map Float64.fin) (s : Float64) :
    points.foldl (fun acc p => acc.add p.Value) s =
      vals.foldl (fun (acc : Float64) (v : ℚ) => acc.add (.fin v)) s := by
  induction points generalizing vals s with
  | nil =>
    cases vals with
    | nil => rfl
    | cons v vs => simp at hv
  | cons p ps ih =>
    cases vals with
    | nil => simp at hv
    | cons v vs =>
      simp only [List.map_cons, List.cons.injEq] at hv
      simp only [List.foldl_cons, hv.1]
      exact ih vs hv.2 _

theorem values_of_map_eq (points : List TimeSeriesPoint) (vals : List ℚ)
    (hv : points.map (fun p => p.Value) = vals.map Float64.fin) :
    (∀ p ∈ points, ∃ q ∈ vals, p.Value = .fin q) ∧
    (∀ v ∈ vals, ∃ p ∈ points, p.Value = .fin v) := by
  constructor
  · intro p hp
    have : p.Value ∈ vals.map Float64.fin := by
      rw [← hv]
      exact List.mem_map.2 ⟨p, hp, rfl⟩
    obtain ⟨q, hq, hqv⟩ := List.mem_map.1 this
    exact ⟨q, hq, hqv.symm⟩
  · intro v hvm
    have : Float64.fin v ∈ points.map (fun p => p.Value) := by
      rw [hv]
      exact List.mem_map.2 ⟨v, hvm, rfl⟩
    obtain ⟨p, hp, hpv⟩ := List.mem_map.1 this
    exact ⟨p, hp, hpv⟩

/-! ## Summary statistics -/

/-- C1 as stated fails: on the values 1e16, 1, -1e16 the `float64` sum is 0 (the
addition 1e16 + 1 rounds back to 1e16), so the average on the summary line is 0,
while the sum of the values divided by the count is 1/3. -/
theorem average_exact_counterexample :
    seriesStats [samplePoint 1 10000000000000000, samplePoint 2 1,
        samplePoint 3 (-10000000000000000)] =
      some { count := 3, average := .fin 0,
             min := .fin (-10000000000000000), max := .fin 10000000000000000 } ∧
    ((10000000000000000 : ℚ) + 1 + -10000000000000000) / 3 = 1 / 3 ∧
    Float64.fin 0 ≠ Float64.fin (((10000000000000000 : ℚ) + 1 + -10000000000000000) / 3) :=
  ⟨by decide!, by norm_num, by decide!⟩

/-- C1, amended: for a non-empty series of finite values, the summary line that
`generatePDF` prints has count = number of points, min = the least value, max = the
greatest value, and average = the `float64` quotient of the left-to-right `float64`
sum by `float64(count)`; the average is the sum of the values divided by the count
whenever no addition, the conversion of the count and the division round. -/
theorem seriesStats_float (points : List TimeSeriesPoint) (vals : List ℚ)
    (hv : points.map (fun p => p.Value) = vals.map Float64.fin) (hne : points ≠ []) :
    ∃ s, seriesStats points = some s ∧
      s.count = points.length ∧
      (∃ mn ∈ vals, s.min = .fin mn ∧ ∀ v ∈ vals, mn ≤ v) ∧
      (∃ mx ∈ vals, s.max = .fin mx ∧ ∀ v ∈ vals, v ≤ mx) ∧
      s.average =
        (vals.foldl (fun (acc : Float64) (v : ℚ) => acc.add (.fin v)) (.fin 0)).div
          (Float64.ofInt points.length) ∧
      ((∀ k, 1 ≤ k → k ≤ vals.length →
          roundFloat64 ((vals.take k).sum) = .fin ((vals.take k).sum)) →
        Float64.ofInt points.length = .fin (points.length : ℚ) →
        roundFloat64 (vals.sum / (points.length : ℚ)) =
          .fin (vals.sum / (points.length : ℚ)) →
        s.average = .fin (vals.sum / (points.length : ℚ))) ∧
      ∀ pdf key, summaryStep pdf key points =
        pdf ++ [.Cell 0 6 (.sprintf "Metric: %s" [.str key]),
                .Ln 5,
                .Cell 20 5 (.lit ""),
                .Cell 0 5 (.sprintf "Count: %d, Average: %.2f, Min: %.2f, Max: %.2f"
                  [.int s.count, .float s.average, .float s.min, .float s.max]),
                .Ln 8] := by
  obtain ⟨hpv, hvp⟩ := values_of_map_eq points vals hv
  cases points with
  | nil => exact absurd rfl hne
  | cons p0 rest =>
    obtain ⟨q0, hq0m, hq0⟩ := hpv p0 (List.mem_cons_self _ _)
    have hfin : ∀ p ∈ p0 :: rest, ∃ q, p.Value = .fin q := fun p hp => by
      obtain ⟨q, _, hq⟩ := hpv p hp
      exact ⟨q, hq⟩
    have hsum : (statsLoop (p0 :: rest) (.fin 0, p0.Value, p0.Value)).1 =
        vals.foldl (fun (acc : Float64) (v : ℚ) => acc.add (.fin v)) (.fin 0) := by
      rw [statsLoop_sum_fold, foldl_add_values _ vals hv]
    refine ⟨_, rfl, rfl, ?_, ?_, ?_, ?_, ?_⟩
    · obtain ⟨m, h1, _, h3, h4⟩ := statsLoop_min_fin (p0 :: rest) (.fin 0) p0.Value q0 hfin
      have hmem : m ∈ vals := by
        rcases h4 with h4 | ⟨p, hp, h4⟩
        · rw [h4]; exact hq0m
        · obtain ⟨q, hqm, hq⟩ := hpv p hp
          rw [h4] at hq
          cases hq
          exact hqm
      refine ⟨m, hmem, ?_, ?_⟩
      · simp only [hq0] at h1 ⊢
        exact h1
      · intro v hvm
        obtain ⟨p, hp, hpv'⟩ := hvp v hvm
        exact h3 p hp v hpv'
    · obtain ⟨m, h1, _, h3, h4⟩ := statsLoop_max_fin (p0 :: rest) (.fin 0) p0.Value q0 hfin
      have hmem : m ∈ vals := by
        rcases h4 with h4 | ⟨p, hp, h4⟩
        · rw [h4]; exact hq0m
        · obtain ⟨q, hqm, hq⟩ := hpv p hp
          rw [h4] at hq
          cases hq
          exact hqm
      refine ⟨m, hmem, ?_, ?_⟩
      · simp only [hq0] at h1 ⊢
        exact h1
      · intro v hvm
        obtain ⟨p, hp, hpv'⟩ := hvp v hvm
        exact h3 p hp v hpv'
    · simp only [hsum]
    · intro hadd hcount hdiv
      have hexact := foldl_add_exact vals 0 (fun k hk1 hk => by simpa using hadd k hk1 hk)
      have hlen : ((p0 :: rest).length : ℚ) ≠ 0 :=
        Nat.cast_ne_zero.2 (by simp)
      simp only [hsum, hexact, zero_add, hcount, Float64.div, hlen, if_false, hdiv]
    · intro pdf key
      rfl

/-- Witness for C1, amended: the values 10, 20, 30 give count 3, average 20, min 10
and max 30; no operation rounds. -/
theorem seriesStats_float_witness :
    ∃ s, seriesStats [samplePoint 1 10, samplePoint 2 20, samplePoint 3 30] = some s ∧
      s.count = 3 ∧ s.average = .fin 20 ∧ s.min = .fin 10 ∧ s.max = .fin 30 := by
  obtain ⟨s, hs, hc, _, _, _, hex, _⟩ :=
    seriesStats_float [samplePoint 1 10, samplePoint 2 20, samplePoint 3 30] [10, 20, 30]
      (by decide) (by decide)
  have havg := hex (by decide!) (by decide!) (by decide!)
  have heval : seriesStats [samplePoint 1 10, samplePoint 2 20, samplePoint 3 30] =
      some { count := 3, average := .fin 20, min := .fin 10, max := .fin 30 } := by decide!
  rw [heval] at hs
  cases hs
  exact ⟨_, heval, rfl, rfl, rfl, rfl⟩

/-! ## Chart preparation -/

/-- C2: under the contract of `sort.Slice`, the slice `generateChart` leaves behind
is a rearrangement of the input ordered by ascending timestamp, the chart's
instants and values are read off it position by position, both have the length of
the input, the instants are ascending, and the (instant, value) pairs are a
rearrangement of those of the input. -/
theorem generateChart_sorted_perm (lb : Libs) (h : SortSliceContract lb.sortSlice)
    (title : String) (points : List TimeSeriesPoint) :
    (generateChart lb title points).1.Perm points ∧
    (generateChart lb title points).1.Pairwise (fun a b => a.Timestamp ≤ b.Timestamp) ∧
    (prepareChart lb title points).2.XValues =
      (generateChart lb title points).1.map (fun p => p.Timestamp.tdiv 1000) ∧
    (prepareChart lb title points).2.YValues =
      (generateChart lb title points).1.map (fun p => p.Value) ∧
    (prepareChart lb title points).2.XValues.length = points.length ∧
    (prepareChart lb title points).2.YValues.length = points.length ∧
    (prepareChart lb title points).2.XValues.Pairwise (fun x y => x ≤ y) ∧
    ((prepareChart lb title points).2.XValues.zip
      (prepareChart lb title points).2.YValues).Perm
      (points.map (fun p => (p.Timestamp.tdiv 1000, p.Value))) := by
  have hfst := generateChart_fst lb title points
  have hperm := (h lessTimestamp points).1
  have hsorted := sortSlice_sorted lb h points
  rw [hfst]
  refine ⟨hperm, hsorted, rfl, rfl, ?_, ?_, ?_, ?_⟩
  · simp [prepareChart, hperm.length_eq]
  · simp [prepareChart, hperm.length_eq]
  · simp only [prepareChart]
    exact List.Pairwise.map _ (fun a b hab => tdiv_thousand_mono _ _ hab) hsorted
  · simp only [prepareChart, List.zip_map']
    exact hperm.map _

/-- Witness for C2: three points given out of order, sorted by the stable insertion
sort. -/
theorem generateChart_sorted_perm_witness :
    (prepareChart sampleLibs "cpu"
      [samplePoint 3000 30, samplePoint 1000 10, samplePoint 2000 20]).2.XValues = [1, 2, 3] ∧
    (generateChart sampleLibs "cpu"
      [samplePoint 3000 30, samplePoint 1000 10, samplePoint 2000 20]).1.Pairwise
      (fun a b => a.Timestamp ≤ b.Timestamp) :=
  ⟨by decide,
   (generateChart_sorted_perm sampleLibs insertionSortSlice_contract "cpu"
      [samplePoint 3000 30, samplePoint 1000 10, samplePoint 2000 20]).2.1⟩

/-- C3 as stated fails: on thirteen points of which the points 1 and 9 share the
timestamp 7000, `sort.Slice` picks point 9 as the pivot and partitions around it, and
`generateChart` leaves point 9 before point 1. -/
theorem generateChart_stable_counterexample :
    tiedPoints.filter (fun p => decide (p.Timestamp = 7000)) =
      [samplePoint 7000 1, samplePoint 7000 9] ∧
    (generateChart goLibs "cpu" tiedPoints).1.filter (fun p => decide (p.Timestamp = 7000)) =
      [samplePoint 7000 9, samplePoint 7000 1] ∧
    (generateChart goLibs "cpu" tiedPoints).1 =
      [samplePoint 1000 2, samplePoint 2000 4, samplePoint 3000 0, samplePoint 4000 8,
       samplePoint 5000 6, samplePoint 6000 11, samplePoint 7000 9, samplePoint 7000 1,
       samplePoint 8000 12, samplePoint 9000 3, samplePoint 10000 10, samplePoint 11000 5,
       samplePoint 12000 7] :=
  ⟨by decide, by decide, by decide⟩

/-- C3, amended: under the contract of `sort.Slice`, the points that share a
timestamp are the same points before and after `generateChart`, up to their order;
their order is kept when no two points of the input share a timestamp. -/
theorem generateChart_groups (lb : Libs) (h : SortSliceContract lb.sortSlice)
    (title : String) (points : List TimeSeriesPoint) (t : Int) :
    ((generateChart lb title points).1.filter (fun p => decide (p.Timestamp = t))).Perm
      (points.filter (fun p => decide (p.Timestamp = t))) ∧
    (points.Pairwise (fun a b => a.Timestamp ≠ b.Timestamp) →
      (generateChart lb title points).1.filter (fun p => decide (p.Timestamp = t)) =
        points.filter (fun p => decide (p.Timestamp = t))) := by
  have hp : (generateChart lb title points).1.Perm points := by
    rw [generateChart_fst]
    exact (h lessTimestamp points).1
  refine ⟨hp.filter _, fun hd => ?_⟩
  exact perm_eq_of_length_le_one _ _ (hp.filter _) (filter_timestamp_length_le_one points t hd)

/-- Witness for C3, amended: two points that share a timestamp, under the stable
insertion sort. -/
theorem generateChart_groups_witness :
    ((generateChart sampleLibs "cpu" [samplePoint 1000 1, samplePoint 1000 2]).1.filter
        (fun p => decide (p.Timestamp = 1000))).Perm
      ([samplePoint 1000 1, samplePoint 1000 2].filter
        (fun p => decide (p.Timestamp = 1000))) :=
  (generateChart_groups sampleLibs insertionSortSlice_contract "cpu"
    [samplePoint 1000 1, samplePoint 1000 2] 1000).1

theorem count_rows_ln (lb : Libs) (l : List TimeSeriesPoint) :
    (l.flatMap (dataRow lb)).count (PdfOp.Ln 6) = l.length := by
  induction l with
  | nil => simp
  | cons p l ih =>
    rw [List.flatMap_cons, List.count_append, ih]
    simp [dataRow, List.count_cons, Nat.add_comm]

theorem count_rows_marker (lb : Libs) (l : List TimeSeriesPoint) :
    (l.flatMap (dataRow lb)).count (PdfOp.Cell 0 6 (.lit "... (truncated)")) = 0 := by
  induction l with
  | nil => simp
  | cons p l ih =>
    rw [List.flatMap_cons, List.count_append, ih]
    simp [dataRow, List.count_cons]

/-! ## Document assembly -/

/-- C4: for a series of n points whose chart renders, the detail table printed by
`generatePDF` is, in this order, one row of four calls (timestamp cell, value cell,
labels cell, line break) for each of the first 20 points of the sorted slice, then
one truncation-marker cell when n > 20 and nothing when n ≤ 20: it has exactly
min(n, 20) row line breaks and exactly one marker cell or none; the page with this
table is part of the document. -/
theorem detailTable_rows (lb : Libs) (h : SortSliceContract lb.sortSlice)
    (reportType : String) (seriesData : GoMap (List TimeSeriesPoint))
    (startTime endTime : Int)
    (hc : (lb.rangeCharts seriesData).Perm seriesData)
    (key : String) (points : List TimeSeriesPoint) (chartData : Bytes)
    (hmem : (key, points) ∈ seriesData) (hne : points ≠ [])
    (hr : lb.Render (prepareChart lb key points).2 = .ok chartData) :
    tableLoop lb (generateChart lb key points).1 0 [] =
      ((generateChart lb key points).1.take 20).flatMap (fun point =>
        [PdfOp.Cell 50 6 (.time "2006-01-02 15:04:05" (point.Timestamp.tdiv 1000)),
         PdfOp.Cell 30 6 (.sprintf "%.2f" [.float point.Value]),
         PdfOp.Cell 0 6 (.join "%s:%s " (lb.rangeLabels point.Labels)),
         PdfOp.Ln 6]) ++
        (if points.length > 20 then [PdfOp.Cell 0 6 (.lit "... (truncated)")] else []) ∧
    ((generateChart lb key points).1.take 20).length = min points.length 20 ∧
    (tableLoop lb (generateChart lb key points).1 0 []).count (PdfOp.Ln 6) =
      min points.length 20 ∧
    (tableLoop lb (generateChart lb key points).1 0 []).count
        (PdfOp.Cell 0 6 (.lit "... (truncated)")) =
      (if points.length > 20 then 1 else 0) ∧
    (detailHead key chartData ++ tableLoop lb (generateChart lb key points).1 0 []) <:+:
      (buildReport lb reportType seriesData startTime endTime).pdf := by
  have hlen : (generateChart lb key points).1.length = points.length := by
    rw [generateChart_fst]
    exact (h lessTimestamp points).1.length_eq
  have htake : ((generateChart lb key points).1.take 20).length = min points.length 20 := by
    rw [List.length_take, hlen, min_comm]
  have hform : tableLoop lb (generateChart lb key points).1 0 [] =
      ((generateChart lb key points).1.take 20).flatMap (dataRow lb) ++
        (if points.length > 20 then truncationRow else []) := by
    rw [tableLoop_eq, hlen]
    simp
  refine ⟨hform, htake, ?_, ?_, ?_⟩
  · rw [hform, List.count_append, count_rows_ln, htake]
    split_ifs <;> simp [truncationRow, List.count_cons]
  · rw [hform, List.count_append, count_rows_marker]
    split_ifs <;> simp [truncationRow, List.count_cons]
  · rw [← detailOps_ok lb key points chartData hne hr]
    exact detailOps_infix_doc lb reportType seriesData startTime endTime key points
      (hc.mem_iff.2 hmem)

/-- Witness for C4: 25 points give exactly 20 data rows and exactly one truncation
marker. -/
theorem detailTable_rows_witness :
    (tableLoop sampleLibs (generateChart sampleLibs "cpu" longSeries).1 0 []).count
        (PdfOp.Ln 6) = 20 ∧
    (tableLoop sampleLibs (generateChart sampleLibs "cpu" longSeries).1 0 []).count
        (PdfOp.Cell 0 6 (.lit "... (truncated)")) = 1 ∧
    (detailHead "cpu" [137, 80, 78, 71] ++
        tableLoop sampleLibs (generateChart sampleLibs "cpu" longSeries).1 0 []) <:+:
      (buildReport sampleLibs "daily" [("cpu", longSeries)] 0 86400).pdf := by
  have hw := detailTable_rows sampleLibs insertionSortSlice_contract "daily"
    [("cpu", longSeries)] 0 86400 (List.Perm.refl _) "cpu" longSeries [137, 80, 78, 71]
    (List.mem_singleton.2 rfl) (by decide) rfl
  exact ⟨hw.2.2.1.trans (by decide), hw.2.2.2.1.trans (by decide), hw.2.2.2.2⟩


/-- C8: whatever the rasterizer does, `generatePDF` returns the serialized document
whenever the serializer succeeds; the document holds the summary line of every
non-empty series, and the detail page (recognised by its heading cell) of exactly
the non-empty series whose chart rendered. -/
theorem generatePDF_render_failure (lb : Libs) (reportType : String)
    (seriesData : GoMap (List TimeSeriesPoint)) (metrics : List String)
    (startTime endTime : Int)
    (hs : (lb.rangeSummary seriesData).Perm seriesData)
    (hc : (lb.rangeCharts seriesData).Perm seriesData) :
    (∀ buf, lb.Output (buildReport lb reportType seriesData startTime endTime).pdf = .ok buf →
      generatePDF lb reportType seriesData metrics startTime endTime = .ok buf) ∧
    (∀ key points, (key, points) ∈ seriesData → points ≠ [] →
      ∃ s, seriesStats points = some s ∧
        summaryLine key s <:+: (buildReport lb reportType seriesData startTime endTime).pdf) ∧
    (∀ key, PdfOp.Cell 0 8 (.sprintf "Chart: %s" [.str key]) ∈
        (buildReport lb reportType seriesData startTime endTime).pdf ↔
      ∃ points, (key, points) ∈ seriesData ∧ points ≠ [] ∧
        ∃ buf, lb.Render (prepareChart lb key points).2 = .ok buf) ∧
    (∀ key points buf, (key, points) ∈ seriesData → points ≠ [] →
      lb.Render (prepareChart lb key points).2 = .ok buf →
      (detailHead key buf ++ tableLoop lb (generateChart lb key points).1 0 []) <:+:
        (buildReport lb reportType seriesData startTime endTime).pdf) := by
  refine ⟨?_, ?_, ?_, ?_⟩
  · intro buf hbuf
    simp only [generatePDF, hbuf]
  · intro key points hmem hne
    cases points with
    | nil => exact absurd rfl hne
    | cons p0 rest =>
      exact ⟨_, rfl, summaryLine_infix_doc lb reportType seriesData startTime endTime key
        (p0 :: rest) _ (hs.mem_iff.2 hmem) rfl⟩
  · intro key
    rw [chartCell_mem_doc]
    constructor
    · rintro ⟨points, hmem, hrest⟩
      exact ⟨points, hc.mem_iff.1 hmem, hrest⟩
    · rintro ⟨points, hmem, hrest⟩
      exact ⟨points, hc.mem_iff.2 hmem, hrest⟩
  · intro key points buf hmem hne hr
    rw [← detailOps_ok lb key points buf hne hr]
    exact detailOps_infix_doc lb reportType seriesData startTime endTime key points
      (hc.mem_iff.2 hmem)

/-- Witness for C8: the rasterizer fails for `mem` and succeeds for `cpu`; the
document has the detail page of `cpu`, none for `mem`, and the summary line of
`mem`. -/
theorem generatePDF_render_failure_witness :
    (PdfOp.Cell 0 8 (.sprintf "Chart: %s" [.str "cpu"]) ∈
        (buildReport sampleLibs "daily" sampleSeries 0 86400).pdf ∧
      PdfOp.Cell 0 8 (.sprintf "Chart: %s" [.str "mem"]) ∉
        (buildReport sampleLibs "daily" sampleSeries 0 86400).pdf ∧
      PdfOp.Cell 0 6 (.sprintf "Metric: %s" [.str "mem"]) ∈
        (buildReport sampleLibs "daily" sampleSeries 0 86400).pdf) ∧
    (PdfOp.Cell 0 8 (.sprintf "Chart: %s" [.str "mem"]) ∈
        (buildReport sampleLibs "daily" sampleSeries 0 86400).pdf ↔
      ∃ points, ("mem", points) ∈ sampleSeries ∧ points ≠ [] ∧
        ∃ buf, sampleLibs.Render (prepareChart sampleLibs "mem" points).2 = .ok buf) :=
  ⟨by decide,
   (generatePDF_render_failure sampleLibs "daily" sampleSeries [] 0 86400
      (List.Perm.refl _) (List.Perm.refl _)).2.2.1 "mem"⟩

/-- C9: a series with no points has no summary line and no detail page in the
document, and no chart with its key is handed to the rasterizer. -/
theorem generatePDF_empty_series (lb : Libs) (reportType : String)
    (seriesData : GoMap (List TimeSeriesPoint)) (startTime endTime : Int)
    (hk : (seriesData.map Prod.fst).Nodup)
    (hs : (lb.rangeSummary seriesData).Perm seriesData)
    (hc : (lb.rangeCharts seriesData).Perm seriesData)
    (key : String) (hmem : (key, []) ∈ seriesData) :
    PdfOp.Cell 0 6 (.sprintf "Metric: %s" [.str key]) ∉
      (buildReport lb reportType seriesData startTime endTime).pdf ∧
    PdfOp.Cell 0 8 (.sprintf "Chart: %s" [.str key]) ∉
      (buildReport lb reportType seriesData startTime endTime).pdf ∧
    ∀ c ∈ (buildReport lb reportType seriesData startTime endTime).rendered,
      c.Title ≠ key := by
  refine ⟨?_, ?_, ?_⟩
  · rw [metricCell_mem_doc]
    rintro ⟨points, hp, hne⟩
    exact hne (mem_unique_of_nodup_keys seriesData hk key _ _ (hs.mem_iff.1 hp) hmem)
  · rw [chartCell_mem_doc]
    rintro ⟨points, hp, hne, _⟩
    exact hne (mem_unique_of_nodup_keys seriesData hk key _ _ (hc.mem_iff.1 hp) hmem)
  · intro c hcm heq
    obtain ⟨points, hp, hne⟩ := mem_rendered lb reportType seriesData startTime endTime c hcm
    rw [heq] at hp
    exact hne (mem_unique_of_nodup_keys seriesData hk key _ _ (hc.mem_iff.1 hp) hmem)

/-- Witness for C9: the empty series `idle` next to `cpu` and `mem`. -/
theorem generatePDF_empty_series_witness :
    PdfOp.Cell 0 6 (.sprintf "Metric: %s" [.str "idle"]) ∉
      (buildReport sampleLibs "daily" sampleSeries 0 86400).pdf ∧
    PdfOp.Cell 0 8 (.sprintf "Chart: %s" [.str "idle"]) ∉
      (buildReport sampleLibs "daily" sampleSeries 0 86400).pdf ∧
    ∀ c ∈ (buildReport sampleLibs "daily" sampleSeries 0 86400).rendered,
      c.Title ≠ "idle" :=
  generatePDF_empty_series sampleLibs "daily" sampleSeries 0 86400 (by decide)
    (List.Perm.refl _) (List.Perm.refl _) "idle" (by decide)

/-! ## Reply decoding -/

/-- C5 as stated fails. On the reply the client delivers for one point whose value
text `abc` is not a number, `GetTimeSeriesData` panics at the `[]byte` assertion:
no point is kept and no series is returned. On `[]byte` texts the parse errors are
dropped but the parsed number is kept: `9223372036854775808` and
`99999999999999999999x` (both `ErrRange`) decode to the timestamp
9223372036854775807, `-9223372036854775809` to -9223372036854775808, and the value
text `1e999` to +Inf, none of them to 0. -/
theorem decode_zero_fallback_counterexample :
    GetTimeSeriesData clientStore "cpu" 0 10 =
      .error (.panic "interface conversion: interface {} is int64, not []uint8") ∧
    (ParseInt "9223372036854775808").2 = some NumErr.ErrRange ∧
    (ParseInt "99999999999999999999x").2 = some NumErr.ErrRange ∧
    (ParseInt "-9223372036854775809").2 = some NumErr.ErrRange ∧
    GetTimeSeriesData sampleStore "cpu" 0 10 =
      .ok [{ Timestamp := 9223372036854775807, Value := .fin (3 / 2), Labels := [] },
           { Timestamp := 0, Value := .fin (5 / 2), Labels := [] },
           { Timestamp := 1000, Value := .fin 0, Labels := [] },
           { Timestamp := 9223372036854775807, Value := .fin (3 / 2), Labels := [] },
           { Timestamp := -9223372036854775808, Value := .inf false, Labels := [] }] := by
  refine ⟨rfl, by decide, by decide, by decide, ?_⟩
  rw [getTimeSeries_bytes sampleStore "cpu" 0 10 samplePairs rfl]
  simp only [samplePairs, List.map, decodedPoint, sampleStore, sampleParseFloat]
  have h1 : (ParseInt "9223372036854775808").1 = 9223372036854775807 := by decide
  have h2 : (ParseInt "12x").1 = 0 := by decide
  have h3 : (ParseInt "1000").1 = 1000 := by decide
  have h4 : (ParseInt "99999999999999999999x").1 = 9223372036854775807 := by decide
  have h5 : (ParseInt "-9223372036854775809").1 = -9223372036854775808 := by decide
  rw [h1, h2, h3, h4, h5]
  simp

/-- C5, amended: when the timestamp and the value of every point entry are `[]byte`
texts, every entry is kept, in order, in its series and the series is returned (in
`GetTimeSeriesData`, and in `GetMultipleTimeSeriesData` under each distinct name);
the decoded timestamp is the number `ParseInt` returns next to its error: 0 with a
syntax error, -9223372036854775808 for a text starting with `-` and
9223372036854775807 otherwise with a range error; the decoded value is the number
`ParseFloat` returns next to its error. -/
theorem decode_parse_errors (st : Store) :
    (∀ key startTime endTime (pts : List (String × String)),
      st.Do [.s "TS.RANGE", .s key, .i startTime, .i endTime] =
        .ok (.arr (pts.map bytesPair)) →
      GetTimeSeriesData st key startTime endTime = .ok (pts.map (decodedPoint st []))) ∧
    (∀ filters startTime endTime (es : List SeriesEntry),
      (es.map (fun e => e.name)).Nodup →
      st.Do (mrangeArgs st filters startTime endTime) = .ok (.arr (es.map bytesEntry)) →
      ∃ m, GetMultipleTimeSeriesData st filters startTime endTime = .ok m ∧
        ∀ e ∈ es, ∃ labels,
          m.get e.name = some (e.points.map (decodedPoint st labels))) ∧
    (∀ labels p,
      (decodedPoint st labels p).Timestamp = (ParseInt p.1).1 ∧
      (decodedPoint st labels p).Value = (st.ParseFloat p.2).1) ∧
    (∀ t,
      ((ParseInt t).2 = some .ErrSyntax → (ParseInt t).1 = 0) ∧
      ((ParseInt t).2 = some .ErrRange →
        (ParseInt t).1 = if t.toList.head? = some '-' then minInt64 else maxInt64) ∧
      ((ParseInt t).2 = none → minInt64 ≤ (ParseInt t).1 ∧ (ParseInt t).1 ≤ maxInt64)) := by
  refine ⟨?_, ?_, fun _ _ => ⟨rfl, rfl⟩, ParseInt_error_value⟩
  · intro key startTime endTime pts hd
    exact getTimeSeries_bytes st key startTime endTime pts hd
  · intro filters startTime endTime es hn hd
    refine ⟨_, getMultiple_bytes st filters startTime endTime es hd, ?_⟩
    intro e he
    exact ⟨_, get_foldl_set_of_mem (fun e : SeriesEntry => e.name) _ es [] hn e he⟩

/-- Witness for C5, amended: the five `[]byte` entries of the sample reply are all
decoded, and so are the two series of the sample multi-series reply. -/
theorem decode_parse_errors_witness :
    GetTimeSeriesData sampleStore "cpu" 0 10 =
      .ok (samplePairs.map (decodedPoint sampleStore [])) ∧
    ∃ m, GetMultipleTimeSeriesData sampleStore [] 0 10 = .ok m ∧
      ∀ e ∈ sampleEntries, ∃ labels,
        m.get e.name = some (e.points.map (decodedPoint sampleStore labels)) :=
  ⟨(decode_parse_errors sampleStore).1 "cpu" 0 10 samplePairs rfl,
   (decode_parse_errors sampleStore).2.1 [] 0 10 sampleEntries (by decide) rfl⟩

/-- C6, the code at the failing input: on a `TS.MRANGE` reply as the client delivers
it (series `cpu`, label `region=us-east`, one point) `GetMultipleTimeSeriesData`
panics at `seriesInfo[0].([]byte)`: no point is returned, with or without labels. -/
theorem labels_client_reply_panics :
    GetMultipleTimeSeriesData clientStore [("region", "us-east")] 0 10 =
      .error (.panic "interface conversion: interface {} is string, not []uint8") :=
  rfl


/-! ## Bucketed summary -/

/-- C10, the code at the failing input: when the avg reply holds one bucket as the
client delivers it (`[0, "4"]`), `GetMetricSummary` panics at `point[1].([]byte)`
instead of returning the average 4; when the avg reply is empty and the max and
min replies hold the buckets 99 and 1, it returns max = 0, min = 0 and no
average. -/
theorem GetMetricSummary_client_reply_panics :
    GetMetricSummary clientStore "cpu" 0 10 =
      .error (.panic "interface conversion: interface {} is string, not []uint8") ∧
    GetMetricSummary emptyAvgStore "cpu" 0 10 =
      .ok [("max", .fin 0), ("min", .fin 0)] :=
  ⟨rfl, rfl⟩


/-! ## GenerateReport -/

/-- C7 as stated fails: with a store whose query fails, `GenerateReport` returns no
response at all (so none with `Success = false` and a non-empty `ErrorMessage`);
the failure is the returned status error. -/
theorem GenerateReport_store_failure_counterexample :
    ¬ ∃ resp, GenerateReport downStore sampleLibs sampleRequest = .ok resp ∧
      resp.Success = false ∧ resp.ErrorMessage ≠ "" ∧ resp.PdfData = [] := by
  rintro ⟨resp, h, _⟩
  have heval : GenerateReport downStore sampleLibs sampleRequest =
      .error (.status .Internal
        ("failed to get time series data: " ++
          ("failed to get multiple time series data: " ++
            "dial tcp 127.0.0.1:6380: connect: connection refused"))) := rfl
  rw [heval] at h
  cases h

/-- C7, amended: when both time bounds parse and the store query fails with a
transport error, `GenerateReport` returns no response and a status error of code
`Internal` whose message is non-empty and carries the cause; and a response that
is returned always has `Success = true` and an empty `ErrorMessage`. -/
theorem GenerateReport_store_failure (st : Store) (lb : Libs) (req : GenerateReportRequest)
    (startTime endTime : Int) (cause : String)
    (hs : lb.parseTime req.StartTime = .ok startTime)
    (he : lb.parseTime req.EndTime = .ok endTime)
    (hd : st.Do (mrangeArgs st req.Filters (wrapInt64 (startTime * 1000))
      (wrapInt64 (endTime * 1000))) = .error cause) :
    GenerateReport st lb req =
      .error (.status .Internal
        ("failed to get time series data: " ++
          ("failed to get multiple time series data: " ++ cause))) ∧
    "failed to get time series data: " ++
      ("failed to get multiple time series data: " ++ cause) ≠ "" ∧
    (∀ (st' : Store) (lb' : Libs) (req' : GenerateReportRequest) resp,
      GenerateReport st' lb' req' = .ok resp →
        resp.Success = true ∧ resp.ErrorMessage = "") := by
  refine ⟨?_, append_ne_empty_of_left _ _ (by decide), ?_⟩
  · simp only [GenerateReport, hs, he, GetMultipleTimeSeriesData, hd]
  · intro st' lb' req' resp h
    unfold GenerateReport at h
    split at h
    · cases h
    · split at h
      · cases h
      · split at h
        · cases h
        · cases h
        · split at h
          · cases h
          · simp only [Except.ok.injEq] at h
            subst h
            exact ⟨rfl, rfl⟩

/-- Witness for C7, amended: the sample request against the store that is down. -/
theorem GenerateReport_store_failure_witness :
    GenerateReport downStore sampleLibs sampleRequest =
      .error (.status .Internal
        ("failed to get time series data: " ++
          ("failed to get multiple time series data: " ++
            "dial tcp 127.0.0.1:6380: connect: connection refused"))) :=
  (GenerateReport_store_failure downStore sampleLibs sampleRequest 1704067200 1704067200
    "dial tcp 127.0.0.1:6380: connect: connection refused" rfl rfl rfl).1

end PdfGenerator
